import Mathlib

set_option linter.unusedVariables false

/-!
Shallow embedding of the trading-bot order-lifecycle orchestrator in
`src/app.py` (ICT PRO BOT V7.5).  Pure data (order specs, position
records, signals) is transcribed directly from the Python dict literals.
External effects (DynamoDB, the Upstox HTTP gateway, the Telegram
notifier, wall-clock time) are modelled by an explicit environment
(`Env`) of oracles plus an explicit world state (`World`) holding the
position store, the external order-status map, and a trace of the
gateway calls (order placements and cancellations) that an execution
issues.  Telegram notifications are fire-and-forget in the source and
are not traced.  Prices are modelled as `Rat` (the source uses Python
floats; none of the verified properties depend on float rounding).
-/

/-- Outbound broker order specification: the exact payload dict built at
each `place_order` call site in `src/app.py` (fields `quantity`,
`product`, `validity`, `price`, `instrument_token`, `order_type`,
`transaction_type`, `disclosed_quantity`, `trigger_price`, `is_amo`). -/
structure OrderSpec where
  quantity : Nat
  product : String
  validity : String
  price : Rat
  instrument_token : String
  order_type : String
  transaction_type : String
  disclosed_quantity : Nat
  trigger_price : Rat
  is_amo : Bool
deriving Repr, DecidableEq

/-- Persisted position record: the `position_state` dict built in the
`/webhook` handler (src/app.py lines 675-690) and stored in DynamoDB. -/
structure Position where
  symbol : String
  action : String
  qty_requested : Nat
  filled_qty : Nat
  entry_order_id : String
  entry_order_data : OrderSpec
  sl_order_id : Option String
  tp_order_id : Option String
  partial_order_id : Option String
  sl_order_data : Option OrderSpec
  tp_order_data : Option OrderSpec
  partial_order_data : Option OrderSpec
  partial_filled : Bool
  created_at : Rat
deriving Repr, DecidableEq

/-- One observable gateway call: an order placement (`place_order`, with
the human-readable label passed at the call site and the resulting order
id, `none` meaning the placement ultimately failed) or an order
cancellation (`cancel_order`). -/
inductive Act where
  | place (spec : OrderSpec) (label : String) (result : Option String)
  | cancel (oid : String)
deriving Repr, DecidableEq

def actLabel : Act → String
  | .place _ l _ => l
  | .cancel _ => ""

def actIsPlace : Act → Bool
  | .place _ _ _ => true
  | .cancel _ => false

def actQty : Act → Nat
  | .place s _ _ => s.quantity
  | .cancel _ => 0

def actTransType : Act → String
  | .place s _ _ => s.transaction_type
  | .cancel _ => ""

/-- The DynamoDB position table: one record per symbol
(`state_type = 'position'`, `state_key = symbol`).  Modelled as an
association list; `put` is the upsert of `save_position_to_db`, `del`
the delete of `delete_position_from_db`. -/
abbrev Store := List (String × Position)

def storeGet (s : Store) (k : String) : Option Position :=
  (s.find? (fun kv => kv.1 == k)).map Prod.snd

def storeDel (s : Store) (k : String) : Store :=
  s.filter (fun kv => !(kv.1 == k))

/-- Upsert.  `put_item` replaces the record with key `k`; the model
keeps the updated record at the end of the association list (the
position of a record in the list is not observable through
`storeGet`/`storeDel`, and no verified property depends on the
iteration order of the snapshot). -/
def storePut (s : Store) (k : String) (p : Position) : Store :=
  storeDel s k ++ [(k, p)]

/-- A value of a numeric field of the inbound JSON signal, as seen by
`safe_float`: a JSON number, a JSON string (with the result of Python
`float(s)` supplied by the oracle component `parsed`, `none` when
`float(s)` raises), or JSON null. -/
inductive SigVal where
  | num (x : Rat)
  | str (s : String) (parsed : Option Rat)
  | null
deriving Repr, DecidableEq

/-- Inbound webhook signal.  `none` in a field means the key is absent
from the JSON body (as opposed to present with value null). -/
structure Signal where
  action : Option String
  symbol : Option String
  qty : Option SigVal
  sl : Option SigVal
  tp : Option SigVal
  partial_tp : Option SigVal
deriving Repr, DecidableEq

def braceOpen : Char := Char.ofNat 123
def braceClose : Char := Char.ofNat 125

/-- The check `"{" in str(value) or "}" in str(value)` of `safe_float`
(template placeholders that were never substituted). -/
def containsBrace (s : String) : Bool :=
  s.data.any (fun c => c == braceOpen || c == braceClose)

/-- `safe_float` (src/app.py lines 236-243): `None` and strings holding
template braces coerce to the default, a string that `float` cannot
parse coerces to the default, otherwise the parsed value is returned. -/
def safe_float (v : SigVal) (default : Rat) : Rat :=
  match v with
  | .null => default
  | .num x => x
  | .str s p => if containsBrace s then default else p.getD default

/-- The coercion applied to the price-like fields `sl`, `tp`,
`partial_tp` in the webhook: `safe_float(data.get(k))` — an absent key
yields Python `None`, then default 0. -/
def signalPriceFloat (v : Option SigVal) : Rat :=
  safe_float (v.getD .null) 0

/-- The coercion applied to `qty` in the webhook:
`safe_float(data.get('qty', 1))` — an absent key yields the dict default
`1`, not `None`. -/
def signalQtyFloat (v : Option SigVal) : Rat :=
  safe_float (v.getD (.num 1)) 0

/-- Python `str.upper()` (ASCII case mapping, which covers every symbol
and action string the bot handles). -/
def pyUpper (s : String) : String :=
  String.mk (s.data.map Char.toUpper)

/-- Replace every non-overlapping occurrence of `pat` in the character
list, left to right, like Python `str.replace` (for a non-empty `pat`).
The first argument is fuel, instantiated with the list length. -/
def pyReplaceAux (pat repl : List Char) : Nat → List Char → List Char
  | _, [] => []
  | 0, l => l
  | fuel + 1, c :: rest =>
    if pat.isPrefixOf (c :: rest) then
      repl ++ pyReplaceAux pat repl fuel (List.drop (pat.length - 1) rest)
    else
      c :: pyReplaceAux pat repl fuel rest

/-- Python `str.replace(pat, repl)` for a non-empty `pat`. -/
def pyReplace (s pat repl : String) : String :=
  String.mk (pyReplaceAux pat.data repl.data s.data.length s.data)

def isPySpace (c : Char) : Bool :=
  c == ' ' || c == Char.ofNat 9 || c == Char.ofNat 10 || c == Char.ofNat 13 ||
    c == Char.ofNat 11 || c == Char.ofNat 12

/-- Python `str.strip()`: remove leading and trailing whitespace. -/
def pyStrip (s : String) : String :=
  String.mk (((s.data.dropWhile isPySpace).reverse.dropWhile isPySpace).reverse)

/-- Python `round` to the nearest integer, written directly on the
numerator and denominator so that it evaluates by kernel reduction:
`pyRound q = ⌊q + 1/2⌋`.  (Python rounds float ties to even; no
verified property depends on the tie case.) -/
def pyRound (q : Rat) : Int :=
  Int.fdiv (2 * q.num + (q.den : Int)) (2 * (q.den : Int))

/-- `qty_requested = max(1, int(round(safe_float(data.get('qty', 1)))))`
(src/app.py line 593). -/
def qtyRequested (v : Option SigVal) : Nat :=
  (max 1 (pyRound (signalQtyFloat v))).toNat

/-- Symbol normalisation in the webhook (src/app.py line 592):
`symbol_raw.replace("-EQ", "").replace("NSE:", "").strip().upper()`. -/
def cleanSymbol (s : String) : String :=
  pyUpper (pyStrip (pyReplace (pyReplace s "-EQ" "") "NSE:" ""))

/-- `action = data.get('action', '').upper()` (src/app.py line 590). -/
def sigAction (sig : Signal) : String :=
  pyUpper (sig.action.getD "")

/-- `"SELL" if action == "BUY" else "BUY"` — used for the reversal exit,
the bracket legs, the emergency exit and the close routes. -/
def oppositeOf (action : String) : String :=
  if action = "BUY" then "SELL" else "BUY"

/-- Python `round(x, 2)` on the prices sent to the broker: round
`q * 100` to the nearest integer (half up, written on the numerator and
denominator like `pyRound`; the source rounds float ties to even — no
verified property depends on the tie case) and divide by 100. -/
def round2 (q : Rat) : Rat :=
  Rat.divInt (Int.fdiv (2 * (q.num * 100) + (q.den : Int)) (2 * (q.den : Int))) 100

/-- The MARKET order dict used by the reversal exit, the entry order,
the emergency exit and the manual/close-all exits (same literal fields
at every site). -/
def marketOrder (qty : Nat) (key : String) (transType : String) : OrderSpec :=
  { quantity := qty, product := "I", validity := "DAY", price := 0,
    instrument_token := key, order_type := "MARKET",
    transaction_type := transType, disclosed_quantity := 0,
    trigger_price := 0, is_amo := false }

/-- The LIMIT order dict used for the partial and full take-profit
legs. -/
def limitOrder (qty : Nat) (price : Rat) (key : String) (transType : String) : OrderSpec :=
  { quantity := qty, product := "I", validity := "DAY", price := price,
    instrument_token := key, order_type := "LIMIT",
    transaction_type := transType, disclosed_quantity := 0,
    trigger_price := 0, is_amo := false }

/-- The SL-M order dict used for the stop-loss leg (original and
adjusted). -/
def slmOrder (qty : Nat) (trigger : Rat) (key : String) (transType : String) : OrderSpec :=
  { quantity := qty, product := "I", validity := "DAY", price := 0,
    instrument_token := key, order_type := "SL-M",
    transaction_type := transType, disclosed_quantity := 0,
    trigger_price := trigger, is_amo := false }

/-- Oracle environment for one HTTP invocation.  `instrumentKey` models
`get_instrument_key` (the instrument table lookup together with its
`-EQ` fallback); `place n spec` gives the final outcome of the n-th
`place_order` gateway call of the execution (`some id` when the call —
after the gateway's own internal retries — succeeded with that order
id, `none` when it ultimately failed, which includes a missing token);
`entryFill oid` gives the `(is_filled, filled_qty)` pair returned by
`verify_order_fill` for the entry order; `cancelOk` tells whether a
cancellation request is accepted broker-side; `tokenOk` is whether
`get_token()` currently returns a valid token; `now` is `time.time()`. -/
structure Env where
  marketOpen : Bool
  tokenOk : Bool
  cancelOk : String → Bool
  instrumentKey : String → Option String
  place : Nat → OrderSpec → Option String
  entryFill : String → Bool × Nat
  now : Rat

/-- World state threaded through an execution: the persisted position
store, the external order-status map as observed by `get_order_status`
(`some "complete"`, `some "pending"`, …, or `none` for a failed status
query), the trace of gateway calls issued so far, and the count of
`place_order` calls (used to index the `place` oracle). -/
structure World where
  store : Store
  status : String → Option String
  trace : List Act
  placeCount : Nat

/-- Issue one `place_order` gateway call (the gateway's internal retry
loop is modelled separately by `place_order` below; here only its final
outcome matters). -/
def doPlace (env : Env) (w : World) (spec : OrderSpec) (label : String) :
    Option String × World :=
  let r := env.place w.placeCount spec
  (r, { w with trace := w.trace ++ [.place spec label r],
               placeCount := w.placeCount + 1 })

/-- `cancel_order` (src/app.py lines 534-548): no call is made without a
token; an accepted cancellation of a not-yet-complete order moves its
broker-side status to "cancelled". -/
def cancel_order (env : Env) (w : World) (oid : String) : World :=
  if env.tokenOk then
    { w with trace := w.trace ++ [.cancel oid],
             status := fun o =>
               if o = oid ∧ env.cancelOk oid = true ∧ w.status oid ≠ some "complete"
               then some "cancelled" else w.status o }
  else w

/-- `emergency_exit_position` (src/app.py lines 550-578): market order
in the direction opposite `action` for `quantity`; a failed instrument
lookup aborts without placing anything. -/
def emergency_exit_position (env : Env) (w : World) (symbol : String)
    (quantity : Nat) (action : String) : Bool × World :=
  match env.instrumentKey symbol with
  | none => (false, w)
  | some instrument_key =>
    let exit_action := oppositeOf action
    let exit_order := marketOrder quantity instrument_key exit_action
    let r := doPlace env w exit_order "EMERGENCY EXIT"
    (r.1.isSome, r.2)

/-- Reply of the `/webhook` route, with the error messages of the
source abbreviated to an enumeration (`invalidAction` = "Invalid
action", `marketClosed` = "Market closed", `symbolNotFound` = "Symbol …
not found in NSE_EQ", `entryFailed` = "Entry order failed",
`entryNotFilled` = "Entry not filled", `slFailedEmergencyExit` =
"SL placement failed - emergency exit"). -/
inductive WebhookErr where
  | invalidAction
  | marketClosed
  | symbolNotFound
  | entryFailed
  | entryNotFilled
  | slFailedEmergencyExit
deriving Repr, DecidableEq

inductive WebhookResult where
  | okResp (filled_qty : Nat)
  | errResp (code : Nat) (e : WebhookErr)
deriving Repr, DecidableEq

/-- Reversal step of the webhook (src/app.py lines 613-636): when a
position for the symbol already exists, cancel its bracket orders (SL,
TP, partial-TP, in that order, skipping null ids), place a MARKET order
for its `filled_qty` with `transaction_type = opposite_action` (the
opposite of the *incoming* signal's action — see the C3 analysis), and
delete the stored record. -/
def reversalStep (env : Env) (w : World) (symbol : String)
    (instrument_key : String) (opposite_action : String) : World :=
  match storeGet w.store symbol with
  | none => w
  | some existing =>
    let w := match existing.sl_order_id with
             | some o => cancel_order env w o
             | none => w
    let w := match existing.tp_order_id with
             | some o => cancel_order env w o
             | none => w
    let w := match existing.partial_order_id with
             | some o => cancel_order env w o
             | none => w
    let exit_order := marketOrder existing.filled_qty instrument_key opposite_action
    let r := doPlace env w exit_order "REVERSAL EXIT"
    { r.2 with store := storeDel r.2.store symbol }

/-- The fresh `position_state` dict (src/app.py lines 675-690). -/
def initPositionState (symbol action : String) (qty_requested filled_qty : Nat)
    (entry_id : String) (entry_order_data : OrderSpec) (now : Rat) : Position :=
  { symbol := symbol, action := action, qty_requested := qty_requested,
    filled_qty := filled_qty, entry_order_id := entry_id,
    entry_order_data := entry_order_data, sl_order_id := none,
    tp_order_id := none, partial_order_id := none, sl_order_data := none,
    tp_order_data := none, partial_order_data := none,
    partial_filled := false, created_at := now }

/-- Place PARTIAL TP (src/app.py lines 692-710): attempted when a
partial target price is supplied (nonzero) and `filled_qty >= 2`; the
ids are recorded only on success, failure is best-effort. -/
def placePartialLeg (env : Env) (w : World) (partial_tp_price : Rat)
    (instrument_key opposite_action : String) (filled_qty : Nat)
    (position_state : Position) : Position × World :=
  if partial_tp_price ≠ 0 ∧ 2 ≤ filled_qty then
    let partial_qty := filled_qty / 2
    let partial_order_data :=
      limitOrder partial_qty (round2 partial_tp_price) instrument_key opposite_action
    let r := doPlace env w partial_order_data "PARTIAL TP (50%)"
    match r.1 with
    | some oid =>
      ({ position_state with
          partial_order_id := some oid,
          partial_order_data := some partial_order_data }, r.2)
    | none => (position_state, r.2)
  else (position_state, w)

/-- Place FULL TP (src/app.py lines 712-731): remaining quantity
deducts `filled_qty // 2` whenever the partial condition held — whether
or not the partial placement succeeded. -/
def placeTpLeg (env : Env) (w : World) (tp_price partial_tp_price : Rat)
    (instrument_key opposite_action : String) (filled_qty : Nat)
    (position_state : Position) : Position × World :=
  if tp_price ≠ 0 then
    let remaining_qty :=
      filled_qty - (if partial_tp_price ≠ 0 ∧ 2 ≤ filled_qty then filled_qty / 2 else 0)
    if 0 < remaining_qty then
      let tp_order_data :=
        limitOrder remaining_qty (round2 tp_price) instrument_key opposite_action
      let r := doPlace env w tp_order_data "FULL TP"
      match r.1 with
      | some oid =>
        ({ position_state with
            tp_order_id := some oid,
            tp_order_data := some tp_order_data }, r.2)
      | none => (position_state, r.2)
    else (position_state, w)
  else (position_state, w)

/-- Place STOP LOSS and persist (src/app.py lines 733-789): SL success
persists the record and returns success; SL failure triggers the
emergency exit and returns failure with nothing persisted; with no SL
price supplied the record is persisted as is and success returned. -/
def placeSlLegAndPersist (env : Env) (w : World) (sl_price : Rat)
    (symbol instrument_key action opposite_action : String) (filled_qty : Nat)
    (position_state : Position) : World × WebhookResult :=
  if sl_price ≠ 0 then
    let sl_order_data := slmOrder filled_qty (round2 sl_price) instrument_key opposite_action
    let r := doPlace env w sl_order_data "STOP LOSS"
    match r.1 with
    | some oid =>
      let position_state :=
        { position_state with
            sl_order_id := some oid,
            sl_order_data := some sl_order_data }
      ({ r.2 with store := storePut r.2.store symbol position_state },
       .okResp filled_qty)
    | none =>
      let e := emergency_exit_position env r.2 symbol filled_qty action
      (e.2, .errResp 500 .slFailedEmergencyExit)
  else
    ({ w with store := storePut w.store symbol position_state },
     .okResp filled_qty)

/-- Bracket placement and persistence: the tail of the webhook handler
after the entry order is confirmed filled (src/app.py lines 673-789). -/
def bracketAndPersist (env : Env) (w : World) (sig : Signal) (symbol : String)
    (instrument_key : String) (action : String) (opposite_action : String)
    (qty_requested : Nat) (filled_qty : Nat) (entry_id : String)
    (entry_order_data : OrderSpec) : World × WebhookResult :=
  let sl_price := signalPriceFloat sig.sl
  let tp_price := signalPriceFloat sig.tp
  let partial_tp_price := signalPriceFloat sig.partial_tp
  let position_state :=
    initPositionState symbol action qty_requested filled_qty entry_id
      entry_order_data env.now
  let r1 :=
    placePartialLeg env w partial_tp_price instrument_key opposite_action
      filled_qty position_state
  let r2 :=
    placeTpLeg env r1.2 tp_price partial_tp_price instrument_key opposite_action
      filled_qty r1.1
  placeSlLegAndPersist env r2.2 sl_price symbol instrument_key action
    opposite_action filled_qty r2.1

/-- Entry placement and fill verification (src/app.py lines 645-671),
continuing into `bracketAndPersist` on a verified fill. -/
def entryAndBracket (env : Env) (w : World) (sig : Signal) (symbol : String)
    (instrument_key : String) (action : String) : World × WebhookResult :=
  let opposite_action := oppositeOf action
  let qty_requested := qtyRequested sig.qty
  let entry_order_data := marketOrder qty_requested instrument_key action
  let er := doPlace env w entry_order_data "ENTRY ORDER"
  match er.1 with
  | none => (er.2, .errResp 500 .entryFailed)
  | some entry_id =>
    let fr := env.entryFill entry_id
    if fr.1 = false ∨ fr.2 = 0 then (er.2, .errResp 500 .entryNotFilled)
    else
      bracketAndPersist env er.2 sig symbol instrument_key action opposite_action
        qty_requested fr.2 entry_id entry_order_data

/-- The `/webhook` route (`OpenPosition`, src/app.py lines 583-794):
validation, reversal of an existing position, entry, bracket,
persistence. -/
def webhook (env : Env) (w : World) (sig : Signal) : World × WebhookResult :=
  let action := sigAction sig
  let symbol := cleanSymbol (sig.symbol.getD "")
  if ¬ (action = "BUY" ∨ action = "SELL") then (w, .errResp 400 .invalidAction)
  else if env.marketOpen = false then (w, .errResp 400 .marketClosed)
  else
    match env.instrumentKey symbol with
    | none => (w, .errResp 400 .symbolNotFound)
    | some instrument_key =>
      let opposite_action := oppositeOf action
      let w := reversalStep env w symbol instrument_key opposite_action
      entryAndBracket env w sig symbol instrument_key action

/-- The SL cancel-and-replace block inside the partial-TP check
(src/app.py lines 821-858): cancel the existing SL, then — only when
the instrument key resolves — place the adjusted SL-M for the remaining
quantity at the stored trigger price, with emergency exit on placement
failure. -/
def replaceSlAfterPartial (env : Env) (w : World) (symbol : String)
    (remaining_qty : Nat) (pos : Position) : Position × World :=
  match pos.sl_order_id with
  | none => (pos, w)
  | some sid =>
    let w := cancel_order env w sid
    match env.instrumentKey symbol with
    | none => (pos, w)
    | some instrument_key =>
      let opposite_action := oppositeOf pos.action
      let new_sl_order :=
        slmOrder remaining_qty
          ((pos.sl_order_data.map OrderSpec.trigger_price).getD 0)
          instrument_key opposite_action
      let r := doPlace env w new_sl_order "ADJUSTED SL"
      match r.1 with
      | some oid =>
        ({ pos with
            sl_order_id := some oid,
            sl_order_data := some new_sl_order }, r.2)
      | none =>
        let e := emergency_exit_position env r.2 symbol remaining_qty pos.action
        (pos, e.2)

/-- Partial-TP check of `/check_positions` (src/app.py lines 810-860):
when the partial order is observed complete and not yet marked filled,
mark it filled, cancel the SL (if any), and — only when the instrument
key resolves — place a replacement SL-M for the remaining quantity at
the original trigger price, falling back to an emergency exit when the
replacement placement fails; then persist the updated record.  The
source reads `pos['partial_order_data']['quantity']` and
`pos['sl_order_data']['trigger_price']` unguarded (it would raise on a
record whose order id is set but whose data is `None`); the model
totalises these two reads with a default of 0, and the theorems that
rely on them carry the corresponding well-formedness hypothesis. -/
def partialCheck (env : Env) (w : World) (symbol : String) (pos : Position) :
    Position × World :=
  match pos.partial_order_id with
  | none => (pos, w)
  | some pid =>
    if pos.partial_filled = true then (pos, w)
    else if w.status pid = some "complete" then
      let pos := { pos with partial_filled := true }
      let partial_qty := (pos.partial_order_data.map OrderSpec.quantity).getD 0
      let remaining_qty := pos.filled_qty - partial_qty
      let r := replaceSlAfterPartial env w symbol remaining_qty pos
      (r.1, { r.2 with store := storePut r.2.store symbol r.1 })
    else (pos, w)

/-- Full-TP check of `/check_positions` (src/app.py lines 862-880):
on a complete TP, cancel the SL (if any) and delete the record. -/
def tpCheck (env : Env) (w : World) (symbol : String) (pos : Position) : World :=
  match pos.tp_order_id with
  | none => w
  | some tid =>
    if w.status tid = some "complete" then
      let w := match pos.sl_order_id with
               | some sid => cancel_order env w sid
               | none => w
      { w with store := storeDel w.store symbol }
    else w

/-- SL check of `/check_positions` (src/app.py lines 882-902): on a
complete SL, cancel the TP and partial orders (if any) and delete the
record. -/
def slCheck (env : Env) (w : World) (symbol : String) (pos : Position) : World :=
  match pos.sl_order_id with
  | none => w
  | some sid =>
    if w.status sid = some "complete" then
      let w := match pos.tp_order_id with
               | some tid => cancel_order env w tid
               | none => w
      let w := match pos.partial_order_id with
               | some oid => cancel_order env w oid
               | none => w
      { w with store := storeDel w.store symbol }
    else w

/-- One iteration of the `/check_positions` loop for one snapshot entry:
the three checks run in source order on the (locally mutated) record. -/
def processPosition (env : Env) (w : World) (symbol : String) (pos : Position) :
    World :=
  let r := partialCheck env w symbol pos
  let w := tpCheck env r.2 symbol r.1
  slCheck env w symbol r.1

/-- The `/check_positions` route (`ReconcilePositions`, src/app.py
lines 799-908): snapshot all stored positions, then run the three
checks for each snapshot entry in order. -/
def check_positions (env : Env) (w : World) : World :=
  List.foldl (fun acc kv => processPosition env acc kv.1 kv.2) w w.store

/-- The `/close/<symbol>` route (src/app.py lines 1027-1068): cancel the
bracket orders, market-exit the remaining quantity, delete the record on
exit success.  Returns the HTTP success flag. -/
def manual_close (env : Env) (w : World) (symbol_raw : String) : World × Bool :=
  let symbol := (symbol_raw.toUpper).replace "-EQ" ""
  match storeGet w.store symbol with
  | none => (w, false)
  | some pos =>
    let w := match pos.sl_order_id with
             | some o => cancel_order env w o
             | none => w
    let w := match pos.tp_order_id with
             | some o => cancel_order env w o
             | none => w
    let w := match pos.partial_order_id with
             | some o => cancel_order env w o
             | none => w
    match env.instrumentKey symbol with
    | none => (w, false)
    | some instrument_key =>
      let remaining_qty :=
        pos.filled_qty -
          (if pos.partial_filled then
            (pos.partial_order_data.map OrderSpec.quantity).getD 0
          else 0)
      let exit_order := marketOrder remaining_qty instrument_key (oppositeOf pos.action)
      let r := doPlace env w exit_order "MANUAL EXIT"
      match r.1 with
      | some _ => ({ r.2 with store := storeDel r.2.store symbol }, true)
      | none => (r.2, false)

/-! Gateway-level model of `place_order` (src/app.py lines 487-532),
used for the retry-policy and credential claims.  Each HTTP attempt is
an oracle outcome: success with an order id, an HTTP-level failure
(non-200 or non-success payload), or a transport exception.  The model
returns the surfaced result together with the number of HTTP attempts
performed and the list of inter-attempt sleep durations (seconds). -/

inductive AttemptOutcome where
  | success (oid : String)
  | httpFail
  | exn
deriving Repr, DecidableEq

structure GatewayEnv where
  tokenOk : Bool
  attempt : Nat → AttemptOutcome

inductive PlaceResult where
  | ok (oid : String)
  | fail
deriving Repr, DecidableEq

def MAX_ORDER_RETRIES : Nat := 3

/-- `place_order(order_data, label, retry_count)`: a missing token is an
immediate failure with no HTTP attempt; otherwise attempt, and on any
failure (HTTP-level or exception) sleep 2 seconds and recurse while
`retry_count < MAX_ORDER_RETRIES`. -/
def place_order (env : GatewayEnv) (retry_count : Nat) :
    PlaceResult × Nat × List Nat :=
  if env.tokenOk = false then (.fail, 0, [])
  else
    match env.attempt retry_count with
    | .success oid => (.ok oid, 1, [])
    | .httpFail =>
      if h : retry_count < MAX_ORDER_RETRIES then
        let (r, n, s) := place_order env (retry_count + 1)
        (r, n + 1, 2 :: s)
      else (.fail, 1, [])
    | .exn =>
      if h : retry_count < MAX_ORDER_RETRIES then
        let (r, n, s) := place_order env (retry_count + 1)
        (r, n + 1, 2 :: s)
      else (.fail, 1, [])
  termination_by MAX_ORDER_RETRIES + 1 - retry_count
  decreasing_by
    all_goals omega

/-- `get_token_from_db` (src/app.py lines 99-120): the stored credential
is `(access_token, generated_at)`; it is returned only while
`(now - generated_at) / 3600 < 20`. -/
def get_token_from_db (stored : Option (String × Rat)) (now : Rat) :
    Option String :=
  match stored with
  | none => none
  | some tg =>
    if (now - tg.2) / 3600 < 20 then some tg.1 else none

/-! Well-formedness and stability predicates used by the reconciliation
theorems, and concrete instances used by counterexamples and witnesses. -/

/-- A stored record as actually produced by the program: whenever a
bracket order id is recorded, the corresponding order payload is
recorded with it.  The webhook and the reconciliation loop always set
the two fields together; `check_positions` dereferences the payloads
unguarded, so the reconciliation theorems are stated over such
records. -/
def WFpos (pos : Position) : Prop :=
  (pos.partial_order_id.isSome = true → pos.partial_order_data.isSome = true) ∧
  (pos.sl_order_id.isSome = true → pos.sl_order_data.isSome = true)

instance (pos : Position) : Decidable (WFpos pos) := by
  unfold WFpos
  infer_instance

/-- A stored record on which one `processPosition` pass acts as the
identity: under the given order-status map none of the three checks of
`/check_positions` can fire. -/
def statusStable (st : String → Option String) (pos : Position) : Prop :=
  (∀ pid, pos.partial_order_id = some pid → pos.partial_filled = false →
    st pid ≠ some "complete") ∧
  (∀ tid, pos.tp_order_id = some tid → st tid ≠ some "complete") ∧
  (∀ sid, pos.sl_order_id = some sid → st sid ≠ some "complete")

def posDflt : Position :=
  { symbol := "", action := "", qty_requested := 0, filled_qty := 0,
    entry_order_id := "", entry_order_data := marketOrder 0 "" "",
    sl_order_id := none, tp_order_id := none, partial_order_id := none,
    sl_order_data := none, tp_order_data := none, partial_order_data := none,
    partial_filled := false, created_at := 0 }

/-- Environment in which every gateway call succeeds: the n-th
`place_order` call returns order id `"OID" ++ n`, symbol TEST resolves
to instrument key IK, and the entry order fills fully at quantity 10. -/
def exEnv : Env :=
  { marketOpen := true, tokenOk := true, cancelOk := fun _ => true,
    instrumentKey := fun s => if s = "TEST" then some "IK" else none,
    place := fun n _ => some ("OID" ++ toString n),
    entryFill := fun _ => (true, 10), now := 0 }

/-- Like `exEnv` but the second `place_order` call of the execution
(index 1: the partial-TP leg of a fresh entry) fails. -/
def exEnvPartialFail : Env :=
  { exEnv with place := fun n _ => if n = 1 then none else some ("OID" ++ toString n) }

/-- Like `exEnv` but every SL-M placement fails. -/
def exEnvSLFail : Env :=
  { exEnv with
      place := fun n spec =>
        if spec.order_type = "SL-M" then none else some ("OID" ++ toString n) }

/-- Like `exEnv` but the instrument lookup resolves nothing (the
instrument table failed to load in this invocation). -/
def exEnvNoKey : Env :=
  { exEnv with instrumentKey := fun _ => none }

def exWorld0 : World :=
  { store := [], status := fun _ => none, trace := [], placeCount := 0 }

/-- BUY signal for TEST with no stop-loss price supplied. -/
def exSigNoSL : Signal :=
  { action := some "BUY", symbol := some "TEST", qty := some (.num 10),
    sl := none, tp := some (.num 110), partial_tp := some (.num 105) }

/-- Full BUY signal for TEST: qty 10, sl 95, tp 110, partial tp 105. -/
def exSigFull : Signal :=
  { action := some "BUY", symbol := some "TEST", qty := some (.num 10),
    sl := some (.num 95), tp := some (.num 110), partial_tp := some (.num 105) }

/-- An open long position on TEST with a full bracket, as the webhook
would persist it. -/
def exPosBuy : Position :=
  { symbol := "TEST", action := "BUY", qty_requested := 10, filled_qty := 10,
    entry_order_id := "E1", entry_order_data := marketOrder 10 "IK" "BUY",
    sl_order_id := some "S1", tp_order_id := some "T1",
    partial_order_id := some "P1",
    sl_order_data := some (slmOrder 10 95 "IK" "SELL"),
    tp_order_data := some (limitOrder 5 110 "IK" "SELL"),
    partial_order_data := some (limitOrder 5 105 "IK" "SELL"),
    partial_filled := false, created_at := 0 }

def exWorldRev : World :=
  { exWorld0 with store := [("TEST", exPosBuy)] }

/-- SELL signal for TEST (a true reversal against `exPosBuy`). -/
def exSigSell : Signal :=
  { action := some "SELL", symbol := some "TEST", qty := some (.num 10),
    sl := some (.num 115), tp := some (.num 90), partial_tp := some (.num 100) }

/-- `exPosBuy` without a full-TP leg (partial and SL only). -/
def exPosPartial : Position :=
  { exPosBuy with tp_order_id := none, tp_order_data := none }

/-- World in which the partial-TP order P1 of TEST is complete. -/
def exWorldPartial : World :=
  { store := [("TEST", exPosPartial)],
    status := fun o => if o = "P1" then some "complete" else none,
    trace := [], placeCount := 0 }

/-- Gateway environment with a valid token in which every HTTP attempt
fails at the HTTP level. -/
def gwAllFail : GatewayEnv :=
  { tokenOk := true, attempt := fun _ => .httpFail }

/-- The record persisted by the webhook for `exSigFull` under `exEnv`. -/
def exOpenedPos : Position :=
  (storeGet (webhook exEnv exWorld0 exSigFull).1.store "TEST").getD posDflt

/-! Basic lemmas about the store operations. -/

theorem storeGet_del_self (s : Store) (k : String) :
    storeGet (storeDel s k) k = none := by
  have h : (storeDel s k).find? (fun kv => kv.1 == k) = none := by
    rw [List.find?_eq_none]
    intro kv hkv
    rcases List.mem_filter.mp hkv with ⟨_, hpred⟩
    simpa using hpred
  simp [storeGet, h]

theorem storeGet_del_ne (s : Store) (k k' : String) (h : k' ≠ k) :
    storeGet (storeDel s k) k' = storeGet s k' := by
  unfold storeGet storeDel
  induction s with
  | nil => rfl
  | cons a t ih =>
    by_cases ha : a.1 = k
    · have h1 : List.filter (fun kv => !(kv.1 == k)) (a :: t) =
          List.filter (fun kv => !(kv.1 == k)) t := by
        simp [List.filter_cons, ha]
      have h2 : ¬ ((fun kv => kv.1 == k') a = true) := by
        simp [ha]
        exact fun hc => h hc.symm
      rw [h1, List.find?_cons_of_neg t h2]
      exact ih
    · have h1 : List.filter (fun kv => !(kv.1 == k)) (a :: t) =
          a :: List.filter (fun kv => !(kv.1 == k)) t := by
        simp [List.filter_cons, ha]
      rw [h1]
      by_cases ha' : a.1 = k'
      · rw [List.find?_cons_of_pos (List.filter (fun kv => !(kv.1 == k)) t)
              (p := fun kv => kv.1 == k') (by simp [ha']),
            List.find?_cons_of_pos t (p := fun kv => kv.1 == k') (by simp [ha'])]
      · rw [List.find?_cons_of_neg (List.filter (fun kv => !(kv.1 == k)) t)
              (p := fun kv => kv.1 == k') (by simp [ha']),
            List.find?_cons_of_neg t (p := fun kv => kv.1 == k') (by simp [ha'])]
        exact ih

theorem storeGet_put_self (s : Store) (k : String) (p : Position) :
    storeGet (storePut s k p) k = some p := by
  have h : (storeDel s k).find? (fun kv => kv.1 == k) = none := by
    rw [List.find?_eq_none]
    intro kv hkv
    rcases List.mem_filter.mp hkv with ⟨_, hpred⟩
    simpa using hpred
  simp [storePut, storeGet, List.find?_append, h]

theorem storeGet_put_ne (s : Store) (k k' : String) (p : Position) (h : k' ≠ k) :
    storeGet (storePut s k p) k' = storeGet s k' := by
  have hk : ((k, p).1 == k') = false := by
    simp
    exact fun hc => h hc.symm
  have h2 : storeGet (storeDel s k ++ [(k, p)]) k' = storeGet (storeDel s k) k' := by
    unfold storeGet
    rw [List.find?_append]
    cases hf : (storeDel s k).find? (fun kv => kv.1 == k') with
    | some kv => simp [hf]
    | none => simp [hf, List.find?, hk]
  rw [storePut, h2, storeGet_del_ne s k k' h]

theorem mem_storeDel (s : Store) (k : String) (kv : String × Position) :
    kv ∈ storeDel s k ↔ kv ∈ s ∧ kv.1 ≠ k := by
  unfold storeDel
  rw [List.mem_filter]
  simp

theorem mem_storePut (s : Store) (k : String) (p : Position)
    (kv : String × Position) :
    kv ∈ storePut s k p ↔ (kv ∈ s ∧ kv.1 ≠ k) ∨ kv = (k, p) := by
  unfold storePut
  rw [List.mem_append, mem_storeDel]
  simp

theorem storeGet_mem (s : Store) (k : String) (p : Position)
    (h : storeGet s k = some p) : (k, p) ∈ s := by
  unfold storeGet at h
  cases hf : s.find? (fun kv => kv.1 == k) with
  | none => rw [hf] at h; simp at h
  | some kv =>
    rw [hf] at h
    simp at h
    have hm := List.mem_of_find?_eq_some hf
    have hp := List.find?_some hf
    simp at hp
    have hkv : kv = (k, p) := by
      cases kv with
      | mk a b =>
        simp at hp h
        rw [hp, h]
    rwa [hkv] at hm

theorem mem_storeGet (s : Store) (k : String) (p : Position)
    (hnd : (s.map Prod.fst).Nodup) (h : (k, p) ∈ s) :
    storeGet s k = some p := by
  unfold storeGet
  induction s with
  | nil => simp at h
  | cons a t ih =>
    rcases List.mem_cons.mp h with h1 | h1
    · rw [← h1]
      rw [List.find?_cons_of_pos t (p := fun kv => kv.1 == k) (by simp)]
      rfl
    · have ha : ¬ (a.1 = k) := by
        intro hc
        simp only [List.map_cons, List.nodup_cons] at hnd
        have hk : k ∈ List.map Prod.fst t := List.mem_map.mpr ⟨(k, p), h1, rfl⟩
        rw [← hc] at hk
        exact hnd.1 hk
      rw [List.find?_cons_of_neg t (p := fun kv => kv.1 == k) (by simp [ha])]
      have hnd' : (t.map Prod.fst).Nodup := by
        simp only [List.map_cons, List.nodup_cons] at hnd
        exact hnd.2
      exact ih hnd' h1

/-! Counterexample and concrete-evaluation theorems. -/

/-- C1, counterexample: a BUY signal with no SL price supplied
(`exSigNoSL`), in an environment where every order succeeds and the
entry fills at quantity 10, makes the webhook return success AND persist
a Position record whose `sl_order_id` is null — refuting the claim that
a successful `OpenPosition` never persists a Position record without a
stop-loss, including when no SL price is supplied in the signal. -/
theorem c1_counterexample :
    (webhook exEnv exWorld0 exSigNoSL).2 = WebhookResult.okResp 10 ∧
    (storeGet (webhook exEnv exWorld0 exSigNoSL).1.store "TEST").map
      Position.sl_order_id = some none :=
  ⟨rfl, rfl⟩

/-- C3, code-bug evaluation: with an existing long (action "BUY")
position of filled quantity 10 on TEST and an incoming SELL signal, the
webhook's reversal step issues its "REVERSAL EXIT" market order with
`transaction_type = "BUY"` — the SAME direction as the existing
exposure (it uses the opposite of the NEW signal's action, src/app.py
line 610), which doubles the long exposure instead of squaring it off,
while the claim (and the code's own "REVERSAL: Squaring off" log and
"REVERSAL EXIT" label) requires the closing direction "SELL". -/
theorem c3_reversal_wrong_direction :
    (storeGet exWorldRev.store "TEST").map Position.action = some "BUY" ∧
    sigAction exSigSell = "SELL" ∧
    ((webhook exEnv exWorldRev exSigSell).1.trace.filter
      (fun a => actLabel a == "REVERSAL EXIT")).map actTransType = ["BUY"] ∧
    ((webhook exEnv exWorldRev exSigSell).1.trace.filter
      (fun a => actLabel a == "REVERSAL EXIT")).map actQty = [10] :=
  ⟨rfl, rfl, rfl, rfl⟩

/-- C4, counterexample: a position whose partial-TP order P1 is
complete and which has a live SL order S1, reconciled in an environment
where the instrument lookup resolves nothing (`exEnvNoKey`):
`check_positions` cancels S1 and then places NO order at all — the SL
is neither re-placed nor emergency-exited, so protection lapses,
refuting the claim that the SL is always cancelled AND re-placed (with
emergency exit on replacement failure). -/
theorem c4_counterexample :
    (check_positions exEnvNoKey exWorldPartial).trace = [Act.cancel "S1"] ∧
    ((check_positions exEnvNoKey exWorldPartial).trace.filter actIsPlace) = [] ∧
    (storeGet (check_positions exEnvNoKey exWorldPartial).store "TEST").map
      Position.partial_filled = some true :=
  ⟨rfl, rfl, rfl⟩

/-- C5, counterexample: full BUY signal (qty 10, partial target 105
supplied), entry fills at 10, the partial-TP placement FAILS
(`exEnvPartialFail`), every other placement succeeds.  The webhook
returns success with no partial order recorded, yet the full-TP order
quantity is 5 = 10 − floor(10/2), not 10 − 0 as the claim requires when
no partial order was placed. -/
theorem c5_counterexample :
    (webhook exEnvPartialFail exWorld0 exSigFull).2 = WebhookResult.okResp 10 ∧
    (storeGet (webhook exEnvPartialFail exWorld0 exSigFull).1.store "TEST").map
      Position.partial_order_id = some none ∧
    ((storeGet (webhook exEnvPartialFail exWorld0 exSigFull).1.store "TEST").bind
      Position.tp_order_data).map OrderSpec.quantity ≠ some (10 - 0) := by
  refine ⟨rfl, rfl, ?_⟩
  decide

/-- C7, counterexample: with a valid token and every HTTP attempt
failing, `place_order` performs 4 HTTP attempts (1 initial + 3
retries), not at most 3 as the claim states. -/
theorem c7_counterexample :
    place_order gwAllFail 0 = (PlaceResult.fail, 4, [2, 2, 2]) ∧
    ¬ ((place_order gwAllFail 0).2.1 ≤ 3) := by
  have h : place_order gwAllFail 0 = (PlaceResult.fail, 4, [2, 2, 2]) := by
    rw [place_order, place_order, place_order, place_order]
    simp [gwAllFail, MAX_ORDER_RETRIES]
  refine ⟨h, ?_⟩
  rw [h]
  decide

/-- C8, counterexample: a signal with the `qty` key MISSING is coerced
to 1 (the dict default in `data.get('qty', 1)`), not to 0 as the claim
states for every missing numeric field. -/
theorem c8_counterexample :
    signalQtyFloat none = 1 ∧ qtyRequested none = 1 ∧ (1 : Rat) ≠ 0 := by
  refine ⟨rfl, rfl, by norm_num⟩

/-- C7 (amended): with a valid token, when every HTTP attempt fails —
whether with a non-success HTTP response or a transport exception, so
no failure class is exempted from retry — `place_order` performs
exactly 4 HTTP attempts in total (1 initial + MAX_ORDER_RETRIES = 3
retries, not 3 attempts as the claim states), sleeps a fixed 2 seconds
before each retry, and then surfaces the failure as a terminal error to
the caller. -/
theorem c7_amended (env : GatewayEnv) (htok : env.tokenOk = true)
    (hfail : ∀ n oid, env.attempt n ≠ AttemptOutcome.success oid) :
    place_order env 0 = (PlaceResult.fail, 4, [2, 2, 2]) := by
  have h3 : place_order env 3 = (PlaceResult.fail, 1, []) := by
    rw [place_order]
    rw [if_neg (by rw [htok]; simp)]
    cases h : env.attempt 3 with
    | success oid => exact absurd h (hfail 3 oid)
    | httpFail => rw [dif_neg (by unfold MAX_ORDER_RETRIES; omega)]
    | exn => rw [dif_neg (by unfold MAX_ORDER_RETRIES; omega)]
  have h2 : place_order env 2 = (PlaceResult.fail, 2, [2]) := by
    rw [place_order]
    rw [if_neg (by rw [htok]; simp)]
    cases h : env.attempt 2 with
    | success oid => exact absurd h (hfail 2 oid)
    | httpFail =>
      rw [dif_pos (by unfold MAX_ORDER_RETRIES; omega)]
      rw [show (2 : Nat) + 1 = 3 from rfl, h3]
    | exn =>
      rw [dif_pos (by unfold MAX_ORDER_RETRIES; omega)]
      rw [show (2 : Nat) + 1 = 3 from rfl, h3]
  have h1 : place_order env 1 = (PlaceResult.fail, 3, [2, 2]) := by
    rw [place_order]
    rw [if_neg (by rw [htok]; simp)]
    cases h : env.attempt 1 with
    | success oid => exact absurd h (hfail 1 oid)
    | httpFail =>
      rw [dif_pos (by unfold MAX_ORDER_RETRIES; omega)]
      rw [show (1 : Nat) + 1 = 2 from rfl, h2]
    | exn =>
      rw [dif_pos (by unfold MAX_ORDER_RETRIES; omega)]
      rw [show (1 : Nat) + 1 = 2 from rfl, h2]
  rw [place_order]
  rw [if_neg (by rw [htok]; simp)]
  cases h : env.attempt 0 with
  | success oid => exact absurd h (hfail 0 oid)
  | httpFail =>
    rw [dif_pos (by unfold MAX_ORDER_RETRIES; omega)]
    rw [show (0 : Nat) + 1 = 1 from rfl, h1]
  | exn =>
    rw [dif_pos (by unfold MAX_ORDER_RETRIES; omega)]
    rw [show (0 : Nat) + 1 = 1 from rfl, h1]

/-- C7, witness: the amended theorem applied to the all-HTTP-failure
gateway environment. -/
theorem c7_witness : place_order gwAllFail 0 = (PlaceResult.fail, 4, [2, 2, 2]) :=
  c7_amended gwAllFail rfl (fun n oid h => AttemptOutcome.noConfusion h)

/-- C8 (amended): the price-like numeric fields (`price`, `sl`, `tp`,
`partial_tp`, `risk` are all read as `safe_float(data.get(k))`) coerce
to 0 when missing, null, template-brace-contaminated, or unparsable;
`qty` coerces to 0 when malformed (brace-contaminated or unparsable,
before the `max(1, ·)` clamp of `qty_requested`) but coerces to 1 — not
0 — when the key is missing, because it is read as
`safe_float(data.get('qty', 1))`. -/
theorem c8_amended :
    (signalPriceFloat none = 0) ∧
    (signalPriceFloat (some .null) = 0) ∧
    (∀ s p, containsBrace s = true → signalPriceFloat (some (.str s p)) = 0) ∧
    (∀ s, signalPriceFloat (some (.str s none)) = 0) ∧
    (signalQtyFloat none = 1) ∧
    (∀ s p, containsBrace s = true → signalQtyFloat (some (.str s p)) = 0) ∧
    (∀ s, signalQtyFloat (some (.str s none)) = 0) := by
  refine ⟨rfl, rfl, ?_, ?_, rfl, ?_, ?_⟩
  · intro s p h
    simp [signalPriceFloat, safe_float, h]
  · intro s
    simp [signalPriceFloat, safe_float]
  · intro s p h
    simp [signalQtyFloat, safe_float, h]
  · intro s
    simp [signalQtyFloat, safe_float]

/-- C8, witness: the amended coercions at the concrete malformed string
value (an unsubstituted template placeholder) and at a missing qty. -/
theorem c8_witness :
    containsBrace "\x7bqty\x7d" = true ∧
    signalPriceFloat (some (.str "\x7bqty\x7d" none)) = 0 ∧
    signalQtyFloat (some (.str "\x7bqty\x7d" none)) = 0 ∧
    signalQtyFloat none = 1 := by
  have h := c8_amended
  exact ⟨by decide, h.2.2.1 "\x7bqty\x7d" none (by decide),
         h.2.2.2.2.2.1 "\x7bqty\x7d" none (by decide), h.2.2.2.2.1⟩

/-- C9: any order placement requested while no valid credential is
stored — the credential record is absent, or its age `now − generated_at`
exceeds 20 hours (72000 seconds) — fails immediately: `get_token_from_db`
yields no token, and `place_order` returns the failure with 0 HTTP
attempts and no retry sleeps, for every attempt oracle and every entry
retry count. -/
theorem c9_no_credential_no_attempt (stored : Option (String × Rat)) (now : Rat)
    (h : stored = none ∨ ∃ tok gen, stored = some (tok, gen) ∧ 72000 < now - gen) :
    get_token_from_db stored now = none ∧
    ∀ (att : Nat → AttemptOutcome) (rc : Nat),
      place_order { tokenOk := (get_token_from_db stored now).isSome, attempt := att } rc =
        (PlaceResult.fail, 0, []) := by
  have hget : get_token_from_db stored now = none := by
    rcases h with h | ⟨tok, gen, hs, hgt⟩
    · rw [h]; rfl
    · rw [hs]
      show (if (now - gen) / 3600 < 20 then some tok else none) = none
      rw [if_neg]
      intro hlt
      rw [div_lt_iff₀ (by norm_num : (0:Rat) < 3600)] at hlt
      norm_num at hlt
      linarith
  refine ⟨hget, ?_⟩
  intro att rc
  rw [place_order]
  rw [if_pos (by rw [hget]; rfl)]

/-- C9, witness: a credential generated at timestamp 0 queried at
timestamp 100000 (27.8 hours later) yields no token and an immediate
0-attempt failure. -/
theorem c9_witness :
    get_token_from_db (some ("TOK", 0)) 100000 = none ∧
    ∀ (att : Nat → AttemptOutcome) (rc : Nat),
      place_order { tokenOk := (get_token_from_db (some ("TOK", 0)) 100000).isSome,
                    attempt := att } rc = (PlaceResult.fail, 0, []) :=
  c9_no_credential_no_attempt (some ("TOK", 0)) 100000
    (Or.inr ⟨"TOK", 0, rfl, by norm_num⟩)

/-! Characterisation lemmas for the webhook stages. -/

theorem cancel_order_spec (env : Env) (w : World) (oid : String) :
    (cancel_order env w oid).store = w.store ∧
    (cancel_order env w oid).placeCount = w.placeCount ∧
    ∃ δ, (cancel_order env w oid).trace = w.trace ++ δ ∧
      ∀ a ∈ δ, actLabel a = "" := by
  unfold cancel_order
  split
  · exact ⟨rfl, rfl, [Act.cancel oid], rfl, by simp [actLabel]⟩
  · exact ⟨rfl, rfl, [], by simp, by simp⟩

/-- `placePartialLeg` either skips (condition false) or issues exactly
one PARTIAL TP placement, recording the ids only on success. -/
theorem placePartialLeg_eq (env : Env) (w : World) (ptp : Rat)
    (key opp : String) (f : Nat) (ps : Position) :
    (¬ (ptp ≠ 0 ∧ 2 ≤ f) ∧ placePartialLeg env w ptp key opp f ps = (ps, w)) ∨
    ((ptp ≠ 0 ∧ 2 ≤ f) ∧
      placePartialLeg env w ptp key opp f ps =
        ((match env.place w.placeCount (limitOrder (f / 2) (round2 ptp) key opp) with
          | some oid =>
            { ps with
                partial_order_id := some oid,
                partial_order_data :=
                  some (limitOrder (f / 2) (round2 ptp) key opp) }
          | none => ps),
         { w with
             trace := w.trace ++
               [Act.place (limitOrder (f / 2) (round2 ptp) key opp)
                 "PARTIAL TP (50%)"
                 (env.place w.placeCount (limitOrder (f / 2) (round2 ptp) key opp))],
             placeCount := w.placeCount + 1 })) := by
  by_cases h : ptp ≠ 0 ∧ 2 ≤ f
  · right
    refine ⟨h, ?_⟩
    simp only [placePartialLeg, doPlace, if_pos h]
    cases hp : env.place w.placeCount (limitOrder (f / 2) (round2 ptp) key opp) <;>
      simp [hp]
  · left
    refine ⟨h, ?_⟩
    simp only [placePartialLeg, if_neg h]

/-- `placeTpLeg` either skips (no TP price, or remaining quantity zero)
or issues exactly one FULL TP placement for the remaining quantity,
recording the ids only on success. -/
theorem placeTpLeg_eq (env : Env) (w : World) (tpp ptp : Rat)
    (key opp : String) (f : Nat) (ps : Position) :
    (¬ (tpp ≠ 0 ∧ 0 < f - (if ptp ≠ 0 ∧ 2 ≤ f then f / 2 else 0)) ∧
      placeTpLeg env w tpp ptp key opp f ps = (ps, w)) ∨
    ((tpp ≠ 0 ∧ 0 < f - (if ptp ≠ 0 ∧ 2 ≤ f then f / 2 else 0)) ∧
      placeTpLeg env w tpp ptp key opp f ps =
        ((match env.place w.placeCount
              (limitOrder (f - (if ptp ≠ 0 ∧ 2 ≤ f then f / 2 else 0))
                (round2 tpp) key opp) with
          | some oid =>
            { ps with
                tp_order_id := some oid,
                tp_order_data :=
                  some (limitOrder (f - (if ptp ≠ 0 ∧ 2 ≤ f then f / 2 else 0))
                    (round2 tpp) key opp) }
          | none => ps),
         { w with
             trace := w.trace ++
               [Act.place
                 (limitOrder (f - (if ptp ≠ 0 ∧ 2 ≤ f then f / 2 else 0))
                   (round2 tpp) key opp)
                 "FULL TP"
                 (env.place w.placeCount
                   (limitOrder (f - (if ptp ≠ 0 ∧ 2 ≤ f then f / 2 else 0))
                     (round2 tpp) key opp))],
             placeCount := w.placeCount + 1 })) := by
  by_cases h1 : tpp ≠ 0
  · by_cases h2 : 0 < f - (if ptp ≠ 0 ∧ 2 ≤ f then f / 2 else 0)
    · right
      refine ⟨⟨h1, h2⟩, ?_⟩
      simp only [placeTpLeg, doPlace, if_pos h1, if_pos h2]
      cases hp : env.place w.placeCount
          (limitOrder (f - (if ptp ≠ 0 ∧ 2 ≤ f then f / 2 else 0))
            (round2 tpp) key opp) <;> simp [hp]
    · left
      refine ⟨by tauto, ?_⟩
      simp only [placeTpLeg, if_pos h1, if_neg h2]
  · left
    refine ⟨by tauto, ?_⟩
    simp only [placeTpLeg, if_neg h1]

/-- Success characterisation of the SL leg: on a success reply the
record is persisted with all non-SL fields as handed in, and the SL id
is recorded exactly when a nonzero SL price was supplied. -/
theorem placeSl_ok (env : Env) (w : World) (slp : Rat)
    (symbol key action opp : String) (f : Nat) (ps : Position) (f' : Nat)
    (hsl : ps.sl_order_id = none)
    (hres : (placeSlLegAndPersist env w slp symbol key action opp f ps).2 =
      WebhookResult.okResp f') :
    f' = f ∧ ∃ pos,
      (placeSlLegAndPersist env w slp symbol key action opp f ps).1.store =
        storePut w.store symbol pos ∧
      (pos.sl_order_id.isSome = true ↔ slp ≠ 0) ∧
      pos.filled_qty = ps.filled_qty ∧
      pos.qty_requested = ps.qty_requested ∧
      pos.partial_filled = ps.partial_filled ∧
      pos.partial_order_id = ps.partial_order_id ∧
      pos.partial_order_data = ps.partial_order_data ∧
      pos.tp_order_id = ps.tp_order_id ∧
      pos.tp_order_data = ps.tp_order_data := by
  by_cases h : slp ≠ 0
  · simp only [placeSlLegAndPersist, doPlace, if_pos h] at hres ⊢
    cases hp : env.place w.placeCount (slmOrder f (round2 slp) key opp) with
    | some oid =>
      rw [hp] at hres
      have hres2 : WebhookResult.okResp f = WebhookResult.okResp f' := hres
      have hf : f' = f := by
        injection hres2 with h2
        exact h2.symm
      refine ⟨hf,
        { ps with
            sl_order_id := some oid,
            sl_order_data := some (slmOrder f (round2 slp) key opp) },
        rfl, ?_, rfl, rfl, rfl, rfl, rfl, rfl, rfl⟩
      simp [h]
    | none =>
      rw [hp] at hres
      have hres2 : WebhookResult.errResp 500 WebhookErr.slFailedEmergencyExit =
          WebhookResult.okResp f' := hres
      exact (WebhookResult.noConfusion hres2)
  · simp only [placeSlLegAndPersist, if_neg h] at hres ⊢
    have hres2 : WebhookResult.okResp f = WebhookResult.okResp f' := hres
    have hf : f' = f := by
      injection hres2 with h2
      exact h2.symm
    refine ⟨hf, ps, rfl, ?_, rfl, rfl, rfl, rfl, rfl, rfl, rfl⟩
    simp [hsl, h]

/-- Failure characterisation of the SL leg: the SL-failure reply occurs
exactly when a nonzero SL price was supplied and its placement failed;
nothing is persisted, and the trace gains the failed STOP LOSS
placement followed by the EMERGENCY EXIT placement (the latter only
when the instrument key resolves). -/
theorem placeSl_fail (env : Env) (w : World) (slp : Rat)
    (symbol key action opp : String) (f : Nat) (ps : Position)
    (hres : (placeSlLegAndPersist env w slp symbol key action opp f ps).2 =
      WebhookResult.errResp 500 WebhookErr.slFailedEmergencyExit) :
    slp ≠ 0 ∧
    (placeSlLegAndPersist env w slp symbol key action opp f ps).1.store = w.store ∧
    (placeSlLegAndPersist env w slp symbol key action opp f ps).1.trace =
      w.trace ++
        (Act.place (slmOrder f (round2 slp) key opp) "STOP LOSS" none ::
          (match env.instrumentKey symbol with
           | none => []
           | some k2 =>
             [Act.place (marketOrder f k2 (oppositeOf action)) "EMERGENCY EXIT"
               (env.place (w.placeCount + 1) (marketOrder f k2 (oppositeOf action)))])) := by
  by_cases h : slp ≠ 0
  · simp only [placeSlLegAndPersist, doPlace, if_pos h] at hres ⊢
    cases hp : env.place w.placeCount (slmOrder f (round2 slp) key opp) with
    | some oid =>
      rw [hp] at hres
      have hres2 : WebhookResult.okResp f =
          WebhookResult.errResp 500 WebhookErr.slFailedEmergencyExit := hres
      exact (WebhookResult.noConfusion hres2)
    | none =>
      refine ⟨h, ?_, ?_⟩ <;>
        · simp only [emergency_exit_position, doPlace]
          cases hk : env.instrumentKey symbol <;> simp [hk]
  · simp only [placeSlLegAndPersist, if_neg h] at hres
    have hres2 : WebhookResult.okResp f =
        WebhookResult.errResp 500 WebhookErr.slFailedEmergencyExit := hres
    exact (WebhookResult.noConfusion hres2)

/-- Field-level effect of the partial-TP leg on the position record:
only the partial fields can change, and a recorded partial payload that
was not already present carries quantity `filled_qty / 2`; the store is
untouched. -/
theorem placePartialLeg_fst_fields (env : Env) (w : World) (ptp : Rat)
    (key opp : String) (f : Nat) (ps : Position) :
    (placePartialLeg env w ptp key opp f ps).1.sl_order_id = ps.sl_order_id ∧
    (placePartialLeg env w ptp key opp f ps).1.sl_order_data = ps.sl_order_data ∧
    (placePartialLeg env w ptp key opp f ps).1.filled_qty = ps.filled_qty ∧
    (placePartialLeg env w ptp key opp f ps).1.qty_requested = ps.qty_requested ∧
    (placePartialLeg env w ptp key opp f ps).1.partial_filled = ps.partial_filled ∧
    (placePartialLeg env w ptp key opp f ps).1.tp_order_id = ps.tp_order_id ∧
    (placePartialLeg env w ptp key opp f ps).1.tp_order_data = ps.tp_order_data ∧
    (∀ sp, (placePartialLeg env w ptp key opp f ps).1.partial_order_data = some sp →
      ps.partial_order_data = some sp ∨ sp.quantity = f / 2) ∧
    ((¬ (ptp ≠ 0 ∧ 2 ≤ f)) → (placePartialLeg env w ptp key opp f ps).1 = ps) ∧
    (placePartialLeg env w ptp key opp f ps).2.store = w.store := by
  rcases placePartialLeg_eq env w ptp key opp f ps with ⟨hc, he⟩ | ⟨hc, he⟩
  · rw [he]
    exact ⟨rfl, rfl, rfl, rfl, rfl, rfl, rfl, fun sp hsp => Or.inl hsp,
      fun _ => rfl, rfl⟩
  · rw [he]
    dsimp only
    cases hp : env.place w.placeCount (limitOrder (f / 2) (round2 ptp) key opp) with
    | some oid =>
      refine ⟨rfl, rfl, rfl, rfl, rfl, rfl, rfl, ?_, fun hn => absurd hc hn, rfl⟩
      intro sp hsp
      right
      injection hsp with h2
      rw [← h2]
      rfl
    | none =>
      exact ⟨rfl, rfl, rfl, rfl, rfl, rfl, rfl, fun sp hsp => Or.inl hsp,
        fun _ => rfl, rfl⟩

/-- Field-level effect of the full-TP leg on the position record: only
the TP fields can change, and a recorded TP payload that was not
already present carries the remaining quantity; the store is
untouched. -/
theorem placeTpLeg_fst_fields (env : Env) (w : World) (tpp ptp : Rat)
    (key opp : String) (f : Nat) (ps : Position) :
    (placeTpLeg env w tpp ptp key opp f ps).1.sl_order_id = ps.sl_order_id ∧
    (placeTpLeg env w tpp ptp key opp f ps).1.sl_order_data = ps.sl_order_data ∧
    (placeTpLeg env w tpp ptp key opp f ps).1.filled_qty = ps.filled_qty ∧
    (placeTpLeg env w tpp ptp key opp f ps).1.qty_requested = ps.qty_requested ∧
    (placeTpLeg env w tpp ptp key opp f ps).1.partial_filled = ps.partial_filled ∧
    (placeTpLeg env w tpp ptp key opp f ps).1.partial_order_id = ps.partial_order_id ∧
    (placeTpLeg env w tpp ptp key opp f ps).1.partial_order_data = ps.partial_order_data ∧
    (∀ sp, (placeTpLeg env w tpp ptp key opp f ps).1.tp_order_data = some sp →
      ps.tp_order_data = some sp ∨
        sp.quantity = f - (if ptp ≠ 0 ∧ 2 ≤ f then f / 2 else 0)) ∧
    (placeTpLeg env w tpp ptp key opp f ps).2.store = w.store := by
  rcases placeTpLeg_eq env w tpp ptp key opp f ps with ⟨hc, he⟩ | ⟨hc, he⟩
  · rw [he]
    exact ⟨rfl, rfl, rfl, rfl, rfl, rfl, rfl, fun sp hsp => Or.inl hsp, rfl⟩
  · rw [he]
    dsimp only
    cases hp : env.place w.placeCount
        (limitOrder (f - (if ptp ≠ 0 ∧ 2 ≤ f then f / 2 else 0)) (round2 tpp) key opp) with
    | some oid =>
      refine ⟨rfl, rfl, rfl, rfl, rfl, rfl, rfl, ?_, rfl⟩
      intro sp hsp
      right
      injection hsp with h2
      rw [← h2]
      rfl
    | none =>
      exact ⟨rfl, rfl, rfl, rfl, rfl, rfl, rfl, fun sp hsp => Or.inl hsp, rfl⟩

/-- Success characterisation of `bracketAndPersist`: a success reply
carries the filled quantity and persists exactly one record for the
symbol, with the quantities and bracket payloads the source computes. -/
theorem bap_ok (env : Env) (w : World) (sig : Signal)
    (symbol key action opp : String) (qreq f : Nat) (eid : String)
    (espec : OrderSpec) (f' : Nat)
    (hres : (bracketAndPersist env w sig symbol key action opp qreq f eid espec).2 =
      WebhookResult.okResp f') :
    f' = f ∧ ∃ pos,
      (bracketAndPersist env w sig symbol key action opp qreq f eid espec).1.store =
        storePut w.store symbol pos ∧
      pos.filled_qty = f ∧
      pos.qty_requested = qreq ∧
      pos.partial_filled = false ∧
      (pos.sl_order_id.isSome = true ↔ signalPriceFloat sig.sl ≠ 0) ∧
      (¬ (signalPriceFloat sig.partial_tp ≠ 0 ∧ 2 ≤ f) →
        pos.partial_order_id = none ∧ pos.partial_order_data = none) ∧
      (∀ sp, pos.partial_order_data = some sp → sp.quantity = f / 2) ∧
      (∀ sp, pos.tp_order_data = some sp →
        sp.quantity = f -
          (if signalPriceFloat sig.partial_tp ≠ 0 ∧ 2 ≤ f then f / 2 else 0)) := by
  simp only [bracketAndPersist] at hres ⊢
  obtain ⟨p1sl, p1sld, p1f, p1q, p1pf, p1tpi, p1tpd, p1pd, p1skip, p1st⟩ :=
    placePartialLeg_fst_fields env w (signalPriceFloat sig.partial_tp) key opp f
      (initPositionState symbol action qreq f eid espec env.now)
  obtain ⟨t1sl, t1sld, t1f, t1q, t1pf, t1pi, t1pd, t1tpd, t1st⟩ :=
    placeTpLeg_fst_fields env
      (placePartialLeg env w (signalPriceFloat sig.partial_tp) key opp f
        (initPositionState symbol action qreq f eid espec env.now)).2
      (signalPriceFloat sig.tp) (signalPriceFloat sig.partial_tp) key opp f
      (placePartialLeg env w (signalPriceFloat sig.partial_tp) key opp f
        (initPositionState symbol action qreq f eid espec env.now)).1
  obtain ⟨hf, pos, hstore, hiff, e1, e2, e3, e4, e5, e6, e7⟩ :=
    placeSl_ok env _ (signalPriceFloat sig.sl) symbol key action opp f _ f'
      (by rw [t1sl, p1sl]; rfl) hres
  refine ⟨hf, pos, ?_, ?_, ?_, ?_, hiff, ?_, ?_, ?_⟩
  · rw [hstore, t1st, p1st]
  · rw [e1, t1f, p1f]
    rfl
  · rw [e2, t1q, p1q]
    rfl
  · rw [e3, t1pf, p1pf]
    rfl
  · intro hn
    have hps := p1skip hn
    constructor
    · rw [e4, t1pi, hps]
      rfl
    · rw [e5, t1pd, hps]
      rfl
  · intro sp hsp
    rw [e5, t1pd] at hsp
    rcases p1pd sp hsp with hcontra | hq
    · exact Option.noConfusion hcontra
    · exact hq
  · intro sp hsp
    rw [e7] at hsp
    rcases t1tpd sp hsp with hcontra | hq
    · rw [p1tpd] at hcontra
      exact Option.noConfusion hcontra
    · exact hq

theorem placePartialLeg_snd (env : Env) (w : World) (ptp : Rat)
    (key opp : String) (f : Nat) (ps : Position) :
    (placePartialLeg env w ptp key opp f ps).2.store = w.store ∧
    (placePartialLeg env w ptp key opp f ps).2.status = w.status ∧
    ∃ δ, (placePartialLeg env w ptp key opp f ps).2.trace = w.trace ++ δ ∧
      ∀ a ∈ δ, actLabel a = "PARTIAL TP (50%)" := by
  rcases placePartialLeg_eq env w ptp key opp f ps with ⟨hc, he⟩ | ⟨hc, he⟩
  · rw [he]
    exact ⟨rfl, rfl, [], by simp, by simp⟩
  · rw [he]
    exact ⟨rfl, rfl, [Act.place (limitOrder (f / 2) (round2 ptp) key opp)
        "PARTIAL TP (50%)"
        (env.place w.placeCount (limitOrder (f / 2) (round2 ptp) key opp))],
      rfl, by simp [actLabel]⟩

theorem placeTpLeg_snd (env : Env) (w : World) (tpp ptp : Rat)
    (key opp : String) (f : Nat) (ps : Position) :
    (placeTpLeg env w tpp ptp key opp f ps).2.store = w.store ∧
    (placeTpLeg env w tpp ptp key opp f ps).2.status = w.status ∧
    ∃ δ, (placeTpLeg env w tpp ptp key opp f ps).2.trace = w.trace ++ δ ∧
      ∀ a ∈ δ, actLabel a = "FULL TP" := by
  rcases placeTpLeg_eq env w tpp ptp key opp f ps with ⟨hc, he⟩ | ⟨hc, he⟩
  · rw [he]
    exact ⟨rfl, rfl, [], by simp, by simp⟩
  · rw [he]
    exact ⟨rfl, rfl,
      [Act.place (limitOrder (f - (if ptp ≠ 0 ∧ 2 ≤ f then f / 2 else 0))
          (round2 tpp) key opp) "FULL TP"
        (env.place w.placeCount
          (limitOrder (f - (if ptp ≠ 0 ∧ 2 ≤ f then f / 2 else 0))
            (round2 tpp) key opp))],
      rfl, by simp [actLabel]⟩

/-- Failure characterisation of `bracketAndPersist`: the SL-failure
reply leaves the store exactly as it was handed in, and extends the
trace with best-effort TP legs, the failed STOP LOSS placement for the
full filled quantity, and exactly one EMERGENCY EXIT market order in
the direction opposite the entry for the full filled quantity (when the
instrument key resolves; no emergency order otherwise). -/
theorem bap_fail (env : Env) (w : World) (sig : Signal)
    (symbol key action opp : String) (qreq f : Nat) (eid : String)
    (espec : OrderSpec)
    (hres : (bracketAndPersist env w sig symbol key action opp qreq f eid espec).2 =
      WebhookResult.errResp 500 WebhookErr.slFailedEmergencyExit) :
    signalPriceFloat sig.sl ≠ 0 ∧
    (bracketAndPersist env w sig symbol key action opp qreq f eid espec).1.store =
      w.store ∧
    ∃ δ res2,
      (bracketAndPersist env w sig symbol key action opp qreq f eid espec).1.trace =
        w.trace ++ δ ∧
      δ.filter (fun a => actLabel a == "EMERGENCY EXIT") =
        (match env.instrumentKey symbol with
         | none => []
         | some k2 =>
           [Act.place (marketOrder f k2 (oppositeOf action)) "EMERGENCY EXIT" res2]) ∧
      δ.filter (fun a => actLabel a == "STOP LOSS") =
        [Act.place (slmOrder f (round2 (signalPriceFloat sig.sl)) key opp)
          "STOP LOSS" none] := by
  simp only [bracketAndPersist] at hres ⊢
  obtain ⟨pst, psst, δp, hptr, hplab⟩ :=
    placePartialLeg_snd env w (signalPriceFloat sig.partial_tp) key opp f
      (initPositionState symbol action qreq f eid espec env.now)
  obtain ⟨tst, tsst, δt, httr, htlab⟩ :=
    placeTpLeg_snd env
      (placePartialLeg env w (signalPriceFloat sig.partial_tp) key opp f
        (initPositionState symbol action qreq f eid espec env.now)).2
      (signalPriceFloat sig.tp) (signalPriceFloat sig.partial_tp) key opp f
      (placePartialLeg env w (signalPriceFloat sig.partial_tp) key opp f
        (initPositionState symbol action qreq f eid espec env.now)).1
  obtain ⟨hslp, hstore2, htrace2⟩ :=
    placeSl_fail env _ (signalPriceFloat sig.sl) symbol key action opp f _ hres
  refine ⟨hslp, by rw [hstore2, tst, pst], ?_⟩
  have hpnil : ∀ lab : String, lab ≠ "PARTIAL TP (50%)" →
      δp.filter (fun a => actLabel a == lab) = [] := by
    intro lab hlab
    rw [List.filter_eq_nil_iff]
    intro a ha
    rw [hplab a ha]
    simp
    exact fun hc => hlab hc.symm
  have htnil : ∀ lab : String, lab ≠ "FULL TP" →
      δt.filter (fun a => actLabel a == lab) = [] := by
    intro lab hlab
    rw [List.filter_eq_nil_iff]
    intro a ha
    rw [htlab a ha]
    simp
    exact fun hc => hlab hc.symm
  cases hk : env.instrumentKey symbol with
  | none =>
    rw [hk] at htrace2
    refine ⟨δp ++ δt ++
      [Act.place (slmOrder f (round2 (signalPriceFloat sig.sl)) key opp)
        "STOP LOSS" none], none, ?_, ?_, ?_⟩
    · rw [htrace2, httr, hptr]
      simp [List.append_assoc]
    · simp only [List.filter_append,
        hpnil "EMERGENCY EXIT" (by decide), htnil "EMERGENCY EXIT" (by decide)]
      simp [actLabel]
    · simp only [List.filter_append,
        hpnil "STOP LOSS" (by decide), htnil "STOP LOSS" (by decide)]
      simp [actLabel]
  | some k2 =>
    rw [hk] at htrace2
    refine ⟨δp ++ δt ++
      [Act.place (slmOrder f (round2 (signalPriceFloat sig.sl)) key opp)
        "STOP LOSS" none,
       Act.place (marketOrder f k2 (oppositeOf action)) "EMERGENCY EXIT"
         (env.place
           ((placeTpLeg env
              (placePartialLeg env w (signalPriceFloat sig.partial_tp) key opp f
                (initPositionState symbol action qreq f eid espec env.now)).2
              (signalPriceFloat sig.tp) (signalPriceFloat sig.partial_tp) key opp f
              (placePartialLeg env w (signalPriceFloat sig.partial_tp) key opp f
                (initPositionState symbol action qreq f eid espec env.now)).1).2.placeCount + 1)
           (marketOrder f k2 (oppositeOf action)))],
      env.place
        ((placeTpLeg env
           (placePartialLeg env w (signalPriceFloat sig.partial_tp) key opp f
             (initPositionState symbol action qreq f eid espec env.now)).2
           (signalPriceFloat sig.tp) (signalPriceFloat sig.partial_tp) key opp f
           (placePartialLeg env w (signalPriceFloat sig.partial_tp) key opp f
             (initPositionState symbol action qreq f eid espec env.now)).1).2.placeCount + 1)
        (marketOrder f k2 (oppositeOf action)), ?_, ?_, ?_⟩
    · rw [htrace2, httr, hptr]
      simp [List.append_assoc]
    · simp only [List.filter_append,
        hpnil "EMERGENCY EXIT" (by decide), htnil "EMERGENCY EXIT" (by decide)]
      simp [actLabel]
    · simp only [List.filter_append,
        hpnil "STOP LOSS" (by decide), htnil "STOP LOSS" (by decide)]
      simp [actLabel]

/-- The webhook either rejects during validation with the world
untouched, or resolves the instrument key and proceeds through the
reversal step into entry placement. -/
theorem webhook_dispatch (env : Env) (w : World) (sig : Signal) :
    (∃ e, webhook env w sig = (w, WebhookResult.errResp 400 e) ∧
      (e = WebhookErr.invalidAction ∨ e = WebhookErr.marketClosed ∨
        e = WebhookErr.symbolNotFound)) ∨
    (∃ key, env.instrumentKey (cleanSymbol (sig.symbol.getD "")) = some key ∧
      webhook env w sig =
        entryAndBracket env
          (reversalStep env w (cleanSymbol (sig.symbol.getD "")) key
            (oppositeOf (sigAction sig)))
          sig (cleanSymbol (sig.symbol.getD "")) key (sigAction sig)) := by
  unfold webhook
  dsimp only
  split
  · exact Or.inl ⟨_, rfl, Or.inl rfl⟩
  · split
    · exact Or.inl ⟨_, rfl, Or.inr (Or.inl rfl)⟩
    · cases hk : env.instrumentKey (cleanSymbol (sig.symbol.getD "")) with
      | none => exact Or.inl ⟨_, rfl, Or.inr (Or.inr rfl)⟩
      | some key => exact Or.inr ⟨key, rfl, rfl⟩

/-- The entry stage either fails (placement failure or unverified
fill), or hands a verified nonzero fill to the bracket stage. -/
theorem entryAndBracket_dispatch (env : Env) (w : World) (sig : Signal)
    (symbol key action : String) :
    (entryAndBracket env w sig symbol key action).2 =
        WebhookResult.errResp 500 WebhookErr.entryFailed ∨
    (entryAndBracket env w sig symbol key action).2 =
        WebhookResult.errResp 500 WebhookErr.entryNotFilled ∨
    ∃ eid f, 1 ≤ f ∧
      env.place w.placeCount (marketOrder (qtyRequested sig.qty) key action) =
        some eid ∧
      (env.entryFill eid).2 = f ∧
      entryAndBracket env w sig symbol key action =
        bracketAndPersist env
          { w with
              trace := w.trace ++
                [Act.place (marketOrder (qtyRequested sig.qty) key action)
                  "ENTRY ORDER" (some eid)],
              placeCount := w.placeCount + 1 }
          sig symbol key action (oppositeOf action) (qtyRequested sig.qty) f eid
          (marketOrder (qtyRequested sig.qty) key action) := by
  simp only [entryAndBracket, doPlace]
  cases hpr : env.place w.placeCount (marketOrder (qtyRequested sig.qty) key action) with
  | none => exact Or.inl rfl
  | some eid =>
    dsimp only
    by_cases hfill : (env.entryFill eid).1 = false ∨ (env.entryFill eid).2 = 0
    · rw [if_pos hfill]
      exact Or.inr (Or.inl rfl)
    · rw [if_neg hfill]
      push_neg at hfill
      exact Or.inr (Or.inr ⟨eid, (env.entryFill eid).2,
        Nat.one_le_iff_ne_zero.mpr hfill.2, rfl, rfl, rfl⟩)

/-- Store and trace effect of the reversal step: the symbol's record is
gone afterwards, every other record is untouched, and the trace gains
only cancellations and the REVERSAL EXIT placement. -/
theorem reversalStep_store (env : Env) (w : World) (symbol key opp : String) :
    storeGet (reversalStep env w symbol key opp).store symbol = none ∧
    (∀ k, k ≠ symbol →
      storeGet (reversalStep env w symbol key opp).store k = storeGet w.store k) ∧
    (∀ kv, kv ∈ (reversalStep env w symbol key opp).store → kv ∈ w.store) ∧
    ∃ δ, (reversalStep env w symbol key opp).trace = w.trace ++ δ ∧
      ∀ a ∈ δ, actLabel a = "" ∨ actLabel a = "REVERSAL EXIT" := by
  have oc : ∀ (w' : World) (o : Option String),
      (match o with
       | some x => cancel_order env w' x
       | none => w').store = w'.store ∧
      ∃ δ, (match o with
            | some x => cancel_order env w' x
            | none => w').trace = w'.trace ++ δ ∧
        ∀ a ∈ δ, actLabel a = "" := by
    intro w' o
    cases o with
    | none => exact ⟨rfl, [], by simp, by simp⟩
    | some x =>
      obtain ⟨h1, _, δ, h3, h4⟩ := cancel_order_spec env w' x
      exact ⟨h1, δ, h3, h4⟩
  unfold reversalStep
  cases hex : storeGet w.store symbol with
  | none =>
    exact ⟨hex, fun k _ => rfl, fun kv h => h, [], by simp, by simp⟩
  | some existing =>
    obtain ⟨s1, δ1, t1, l1⟩ := oc w existing.sl_order_id
    obtain ⟨s2, δ2, t2, l2⟩ := oc _ existing.tp_order_id
    obtain ⟨s3, δ3, t3, l3⟩ := oc _ existing.partial_order_id
    refine ⟨?_, ?_, ?_, δ1 ++ δ2 ++ δ3 ++
      [Act.place (marketOrder existing.filled_qty key opp) "REVERSAL EXIT"
        (env.place
          (match existing.partial_order_id with
           | some x =>
             cancel_order env
               (match existing.tp_order_id with
                | some x =>
                  cancel_order env
                    (match existing.sl_order_id with
                     | some x => cancel_order env w x
                     | none => w) x
                | none =>
                  match existing.sl_order_id with
                  | some x => cancel_order env w x
                  | none => w) x
           | none =>
             match existing.tp_order_id with
             | some x =>
               cancel_order env
                 (match existing.sl_order_id with
                  | some x => cancel_order env w x
                  | none => w) x
             | none =>
               match existing.sl_order_id with
               | some x => cancel_order env w x
               | none => w).placeCount
          (marketOrder existing.filled_qty key opp))], ?_, ?_⟩
    · exact storeGet_del_self _ symbol
    · intro k hk
      rw [storeGet_del_ne _ symbol k hk]
      dsimp only [doPlace]
      rw [s3, s2, s1]
    · intro kv hkv
      rw [mem_storeDel] at hkv
      have : kv ∈ (match existing.partial_order_id with
          | some x => cancel_order env _ x
          | none => _).store := hkv.1
      rw [s3, s2, s1] at this
      exact this
    · dsimp only [doPlace]
      rw [t3, t2, t1]
      simp [List.append_assoc]
    · intro a ha
      simp only [List.mem_append, List.mem_singleton] at ha
      rcases ha with ((h | h) | h) | h
      · exact Or.inl (l1 a h)
      · exact Or.inl (l2 a h)
      · exact Or.inl (l3 a h)
      · rw [h]
        exact Or.inr rfl

/-- C1 (amended): whenever `OpenPosition` (`/webhook`) returns
successfully, exactly one Position record is persisted for the signal's
symbol, it carries the filled quantity of the reply, and its stop-loss
order id is non-null IF AND ONLY IF the signal supplied a nonzero SL
price — so a successful run persists a record without a stop-loss
exactly when no SL price was supplied, and never otherwise (an SL
placement failure never reaches a successful return). -/
theorem c1_amended (env : Env) (w : World) (sig : Signal) (f : Nat)
    (h : (webhook env w sig).2 = WebhookResult.okResp f) :
    ∃ p, storeGet (webhook env w sig).1.store
        (cleanSymbol (sig.symbol.getD "")) = some p ∧
      (p.sl_order_id.isSome = true ↔ signalPriceFloat sig.sl ≠ 0) ∧
      p.filled_qty = f := by
  rcases webhook_dispatch env w sig with ⟨e, heq, _⟩ | ⟨key, hk, heq⟩
  · rw [heq] at h
    exact absurd h (by simp)
  · rw [heq] at h ⊢
    rcases entryAndBracket_dispatch env
        (reversalStep env w (cleanSymbol (sig.symbol.getD "")) key
          (oppositeOf (sigAction sig))) sig (cleanSymbol (sig.symbol.getD ""))
        key (sigAction sig) with hE | hE | ⟨eid, f2, hf2, hpl, hfl, heq2⟩
    · rw [hE] at h
      exact absurd h (by simp)
    · rw [hE] at h
      exact absurd h (by simp)
    · rw [heq2] at h ⊢
      obtain ⟨hf, pos, hstore, hfl2, hqr, hpf, hiff, hskip, hpd, htpd⟩ :=
        bap_ok env _ sig _ key (sigAction sig) (oppositeOf (sigAction sig))
          (qtyRequested sig.qty) f2 eid _ f h
      refine ⟨pos, ?_, hiff, by rw [hfl2]; exact hf.symm⟩
      rw [hstore]
      exact storeGet_put_self _ _ pos

/-- C1, witness: the amended theorem at the full BUY signal (nonzero SL
supplied) in the all-success environment. -/
theorem c1_witness :
    ∃ p, storeGet (webhook exEnv exWorld0 exSigFull).1.store
        (cleanSymbol (exSigFull.symbol.getD "")) = some p ∧
      (p.sl_order_id.isSome = true ↔ signalPriceFloat exSigFull.sl ≠ 0) ∧
      p.filled_qty = 10 :=
  c1_amended exEnv exWorld0 exSigFull 10 rfl

/-- C5 (amended): for every successful entry with filled quantity `f`:
when a partial target price is supplied and `f ≥ 2` the recorded
partial payload carries quantity `floor(f/2)`, otherwise no partial
order is recorded; and the full take-profit payload, when present,
carries quantity `f − d` where `d = floor(f/2)` whenever the partial
condition held (partial price supplied and `f ≥ 2`) — even when the
partial placement was attempted and failed — and `d = 0` otherwise. -/
theorem c5_amended (env : Env) (w : World) (sig : Signal) (f : Nat)
    (h : (webhook env w sig).2 = WebhookResult.okResp f) :
    ∃ p, storeGet (webhook env w sig).1.store
        (cleanSymbol (sig.symbol.getD "")) = some p ∧
      p.filled_qty = f ∧
      (¬ (signalPriceFloat sig.partial_tp ≠ 0 ∧ 2 ≤ f) →
        p.partial_order_id = none ∧ p.partial_order_data = none) ∧
      (∀ sp, p.partial_order_data = some sp → sp.quantity = f / 2) ∧
      (∀ sp, p.tp_order_data = some sp →
        sp.quantity = f -
          (if signalPriceFloat sig.partial_tp ≠ 0 ∧ 2 ≤ f then f / 2 else 0)) := by
  rcases webhook_dispatch env w sig with ⟨e, heq, _⟩ | ⟨key, hk, heq⟩
  · rw [heq] at h
    exact absurd h (by simp)
  · rw [heq] at h ⊢
    rcases entryAndBracket_dispatch env
        (reversalStep env w (cleanSymbol (sig.symbol.getD "")) key
          (oppositeOf (sigAction sig))) sig (cleanSymbol (sig.symbol.getD ""))
        key (sigAction sig) with hE | hE | ⟨eid, f2, hf2, hpl, hfl, heq2⟩
    · rw [hE] at h
      exact absurd h (by simp)
    · rw [hE] at h
      exact absurd h (by simp)
    · rw [heq2] at h ⊢
      obtain ⟨hf, pos, hstore, hfl2, hqr, hpf, hiff, hskip, hpd, htpd⟩ :=
        bap_ok env _ sig _ key (sigAction sig) (oppositeOf (sigAction sig))
          (qtyRequested sig.qty) f2 eid _ f h
      subst hf
      refine ⟨pos, ?_, hfl2, hskip, hpd, htpd⟩
      rw [hstore]
      exact storeGet_put_self _ _ pos

/-- C5, witness: the amended theorem under the all-success environment
for the full BUY signal (partial supplied, filled quantity 10: partial
payload quantity 5, full-TP payload quantity 5). -/
theorem c5_witness :
    ∃ p, storeGet (webhook exEnv exWorld0 exSigFull).1.store
        (cleanSymbol (exSigFull.symbol.getD "")) = some p ∧
      p.filled_qty = 10 ∧
      (¬ (signalPriceFloat exSigFull.partial_tp ≠ 0 ∧ 2 ≤ 10) →
        p.partial_order_id = none ∧ p.partial_order_data = none) ∧
      (∀ sp, p.partial_order_data = some sp → sp.quantity = 10 / 2) ∧
      (∀ sp, p.tp_order_data = some sp →
        sp.quantity = 10 -
          (if signalPriceFloat exSigFull.partial_tp ≠ 0 ∧ 2 ≤ 10 then 10 / 2 else 0)) :=
  c5_amended exEnv exWorld0 exSigFull 10 rfl

/-- C2: for every entry that fills (with quantity `f ≥ 1`) and whose
subsequent stop-loss placement fails — which is exactly when the
webhook replies with the SL-failure error — `OpenPosition` leaves no
persisted Position record for the symbol, and the gateway calls issued
by the invocation contain exactly one EMERGENCY EXIT market order, in
the direction opposite the entry, for the full filled quantity `f`
(which is also the quantity of the single failed STOP LOSS placement),
and the failure is returned to the caller. -/
theorem c2_sl_failure_emergency (env : Env) (w : World) (sig : Signal)
    (h : (webhook env w sig).2 =
      WebhookResult.errResp 500 WebhookErr.slFailedEmergencyExit) :
    storeGet (webhook env w sig).1.store (cleanSymbol (sig.symbol.getD "")) = none ∧
    ∃ key f res δ,
      env.instrumentKey (cleanSymbol (sig.symbol.getD "")) = some key ∧
      1 ≤ f ∧
      (webhook env w sig).1.trace = w.trace ++ δ ∧
      δ.filter (fun a => actLabel a == "EMERGENCY EXIT") =
        [Act.place (marketOrder f key (oppositeOf (sigAction sig)))
          "EMERGENCY EXIT" res] ∧
      δ.filter (fun a => actLabel a == "STOP LOSS") =
        [Act.place (slmOrder f (round2 (signalPriceFloat sig.sl)) key
          (oppositeOf (sigAction sig))) "STOP LOSS" none] := by
  rcases webhook_dispatch env w sig with ⟨e, heq, he⟩ | ⟨key, hk, heq⟩
  · rw [heq] at h
    have h2 : e = WebhookErr.slFailedEmergencyExit := by
      have : WebhookResult.errResp 400 e =
          WebhookResult.errResp 500 WebhookErr.slFailedEmergencyExit := h
      injection this with h3 h4
    rcases he with he | he | he <;> rw [he] at h2 <;> cases h2
  · rw [heq] at h ⊢
    rcases entryAndBracket_dispatch env
        (reversalStep env w (cleanSymbol (sig.symbol.getD "")) key
          (oppositeOf (sigAction sig))) sig (cleanSymbol (sig.symbol.getD ""))
        key (sigAction sig) with hE | hE | ⟨eid, f2, hf2, hpl, hfl, heq2⟩
    · rw [hE] at h
      injection h with h3 h4
      cases h4
    · rw [hE] at h
      injection h with h3 h4
      cases h4
    · rw [heq2] at h ⊢
      obtain ⟨hslp, hstore, δb, res2, htr, hfem, hfsl⟩ :=
        bap_fail env _ sig _ key (sigAction sig) (oppositeOf (sigAction sig))
          (qtyRequested sig.qty) f2 eid _ h
      obtain ⟨hrget, hrother, hrsub, δr, hrtr, hrlab⟩ :=
        reversalStep_store env w (cleanSymbol (sig.symbol.getD "")) key
          (oppositeOf (sigAction sig))
      rw [hk] at hfem
      have hremnil : δr.filter (fun a => actLabel a == "EMERGENCY EXIT") = [] := by
        rw [List.filter_eq_nil_iff]
        intro a ha
        rcases hrlab a ha with h1 | h1 <;> rw [h1] <;> simp
      have hrslnil : δr.filter (fun a => actLabel a == "STOP LOSS") = [] := by
        rw [List.filter_eq_nil_iff]
        intro a ha
        rcases hrlab a ha with h1 | h1 <;> rw [h1] <;> simp
      refine ⟨?_, key, f2, res2,
        δr ++ Act.place (marketOrder (qtyRequested sig.qty) key (sigAction sig))
          "ENTRY ORDER" (some eid) :: δb, hk, hf2, ?_, ?_, ?_⟩
      · rw [hstore]
        exact hrget
      · rw [htr]
        show (reversalStep env w (cleanSymbol (sig.symbol.getD "")) key
            (oppositeOf (sigAction sig))).trace ++
            [Act.place (marketOrder (qtyRequested sig.qty) key (sigAction sig))
              "ENTRY ORDER" (some eid)] ++ δb = _
        rw [hrtr]
        simp [List.append_assoc]
      · rw [List.filter_append, hremnil,
          List.filter_cons_of_neg (by simp [actLabel]), hfem]
        simp
      · rw [List.filter_append, hrslnil,
          List.filter_cons_of_neg (by simp [actLabel]), hfsl]
        simp

/-- C2, witness: the theorem applied in the environment where every
SL-M placement fails (entry, partial, TP succeed; the emergency exit
market order succeeds). -/
theorem c2_witness :
    storeGet (webhook exEnvSLFail exWorld0 exSigFull).1.store
      (cleanSymbol (exSigFull.symbol.getD "")) = none ∧
    ∃ key f res δ,
      exEnvSLFail.instrumentKey (cleanSymbol (exSigFull.symbol.getD "")) = some key ∧
      1 ≤ f ∧
      (webhook exEnvSLFail exWorld0 exSigFull).1.trace = exWorld0.trace ++ δ ∧
      δ.filter (fun a => actLabel a == "EMERGENCY EXIT") =
        [Act.place (marketOrder f key (oppositeOf (sigAction exSigFull)))
          "EMERGENCY EXIT" res] ∧
      δ.filter (fun a => actLabel a == "STOP LOSS") =
        [Act.place (slmOrder f (round2 (signalPriceFloat exSigFull.sl)) key
          (oppositeOf (sigAction exSigFull))) "STOP LOSS" none] :=
  c2_sl_failure_emergency exEnvSLFail exWorld0 exSigFull rfl

/-! Lemmas about the reconciliation pass. -/

theorem cancel_status_mono (env : Env) (w : World) (oid o : String)
    (h : (cancel_order env w oid).status o = some "complete") :
    w.status o = some "complete" := by
  unfold cancel_order at h
  split at h
  · dsimp only at h
    split at h
    · simp at h
    · exact h
  · exact h

theorem replaceSl_fst_fields (env : Env) (w : World) (sym : String)
    (rem : Nat) (pos : Position) :
    (replaceSlAfterPartial env w sym rem pos).1.partial_filled = pos.partial_filled ∧
    (replaceSlAfterPartial env w sym rem pos).1.partial_order_id = pos.partial_order_id ∧
    (replaceSlAfterPartial env w sym rem pos).1.partial_order_data = pos.partial_order_data ∧
    (replaceSlAfterPartial env w sym rem pos).1.tp_order_id = pos.tp_order_id ∧
    (replaceSlAfterPartial env w sym rem pos).1.tp_order_data = pos.tp_order_data ∧
    (replaceSlAfterPartial env w sym rem pos).1.filled_qty = pos.filled_qty ∧
    (replaceSlAfterPartial env w sym rem pos).1.qty_requested = pos.qty_requested := by
  refine ⟨?_, ?_, ?_, ?_, ?_, ?_, ?_⟩ <;>
    · unfold replaceSlAfterPartial doPlace emergency_exit_position
      dsimp only
      repeat' split
      all_goals rfl

theorem replaceSl_store (env : Env) (w : World) (sym : String)
    (rem : Nat) (pos : Position) :
    (replaceSlAfterPartial env w sym rem pos).2.store = w.store := by
  unfold replaceSlAfterPartial doPlace emergency_exit_position cancel_order
  dsimp only
  repeat' split
  all_goals rfl

theorem replaceSl_status_mono (env : Env) (w : World) (sym : String)
    (rem : Nat) (pos : Position) (o : String)
    (h : (replaceSlAfterPartial env w sym rem pos).2.status o = some "complete") :
    w.status o = some "complete" := by
  unfold replaceSlAfterPartial doPlace emergency_exit_position at h
  rcases hsl : pos.sl_order_id with _ | sid
  · rw [hsl] at h
    exact h
  · rw [hsl] at h
    rcases hk : env.instrumentKey sym with _ | key
    · rw [hk] at h
      exact cancel_status_mono env w sid o h
    · rw [hk] at h
      dsimp only at h
      split at h
      · exact cancel_status_mono env w sid o h
      · exact cancel_status_mono env w sid o h

theorem partialCheck_cases (env : Env) (w : World) (sym : String) (pos : Position) :
    (partialCheck env w sym pos = (pos, w) ∧
      (∀ pid, pos.partial_order_id = some pid → pos.partial_filled = false →
        w.status pid ≠ some "complete")) ∨
    ((partialCheck env w sym pos).1.partial_filled = true ∧
      (partialCheck env w sym pos).2.store =
        storePut w.store sym (partialCheck env w sym pos).1) := by
  unfold partialCheck
  rcases hpi : pos.partial_order_id with _ | pid
  · exact Or.inl ⟨rfl, fun pid h => Option.noConfusion h⟩
  · dsimp only
    by_cases hpf : pos.partial_filled = true
    · rw [if_pos hpf]
      refine Or.inl ⟨rfl, fun pid' h1 h2 => ?_⟩
      rw [h2] at hpf
      cases hpf
    · rw [if_neg hpf]
      by_cases hst : w.status pid = some "complete"
      · rw [if_pos hst]
        dsimp only
        refine Or.inr ⟨?_, ?_⟩
        · rw [(replaceSl_fst_fields env w sym _ _).1]
        · rw [replaceSl_store]
      · rw [if_neg hst]
        refine Or.inl ⟨rfl, fun pid' h1 h2 => ?_⟩
        injection h1 with h3
        rw [← h3]
        exact hst

theorem partialCheck_status_mono (env : Env) (w : World) (sym : String)
    (pos : Position) (o : String)
    (h : (partialCheck env w sym pos).2.status o = some "complete") :
    w.status o = some "complete" := by
  unfold partialCheck at h
  split at h
  · exact h
  · split at h
    · exact h
    · split at h
      · exact replaceSl_status_mono env w sym _ _ o h
      · exact h

theorem partialCheck_fst_qty (env : Env) (w : World) (sym : String) (pos : Position) :
    (partialCheck env w sym pos).1.filled_qty = pos.filled_qty ∧
    (partialCheck env w sym pos).1.qty_requested = pos.qty_requested := by
  unfold partialCheck
  split
  · exact ⟨rfl, rfl⟩
  · split
    · exact ⟨rfl, rfl⟩
    · split
      · dsimp only
        exact ⟨(replaceSl_fst_fields env w sym _ _).2.2.2.2.2.1,
          (replaceSl_fst_fields env w sym _ _).2.2.2.2.2.2⟩
      · exact ⟨rfl, rfl⟩

theorem partialCheck_store_cases (env : Env) (w : World) (sym : String)
    (pos : Position) :
    (partialCheck env w sym pos).2.store = w.store ∨
    (partialCheck env w sym pos).2.store =
      storePut w.store sym (partialCheck env w sym pos).1 := by
  rcases partialCheck_cases env w sym pos with ⟨heq, _⟩ | ⟨_, hst⟩
  · rw [heq]
    exact Or.inl rfl
  · exact Or.inr hst

theorem tpCheck_cases (env : Env) (w : World) (sym : String) (pos : Position) :
    (tpCheck env w sym pos = w ∧
      (∀ tid, pos.tp_order_id = some tid → w.status tid ≠ some "complete")) ∨
    (∀ kv ∈ (tpCheck env w sym pos).store, ¬ kv.1 = sym) := by
  unfold tpCheck
  rcases hti : pos.tp_order_id with _ | tid
  · exact Or.inl ⟨rfl, fun tid h => Option.noConfusion h⟩
  · dsimp only
    by_cases hst : w.status tid = some "complete"
    · rw [if_pos hst]
      refine Or.inr ?_
      intro kv hkv
      rcases hsi : pos.sl_order_id with _ | sid <;> rw [hsi] at hkv <;>
        dsimp only at hkv <;>
        exact (mem_storeDel _ sym kv).mp hkv |>.2
    · rw [if_neg hst]
      refine Or.inl ⟨rfl, fun tid' h1 h2 => ?_⟩
      injection h1 with h3
      subst h3
      exact hst h2

theorem tpCheck_status_mono (env : Env) (w : World) (sym : String)
    (pos : Position) (o : String)
    (h : (tpCheck env w sym pos).status o = some "complete") :
    w.status o = some "complete" := by
  unfold tpCheck at h
  split at h
  · exact h
  · split at h
    · rcases hsi : pos.sl_order_id with _ | sid <;> rw [hsi] at h <;>
        dsimp only at h
      · exact h
      · exact cancel_status_mono env w sid o h
    · exact h

theorem tpCheck_store_sub (env : Env) (w : World) (sym : String) (pos : Position) :
    ∀ kv ∈ (tpCheck env w sym pos).store, kv ∈ w.store := by
  unfold tpCheck
  split
  · exact fun kv h => h
  · split
    · intro kv hkv
      rcases hsi : pos.sl_order_id with _ | sid <;> rw [hsi] at hkv <;>
        dsimp only at hkv
      · exact ((mem_storeDel _ sym kv).mp hkv).1
      · have h2 := ((mem_storeDel _ sym kv).mp hkv).1
        rwa [(cancel_order_spec env w sid).1] at h2
    · exact fun kv h => h

theorem slCheck_cases (env : Env) (w : World) (sym : String) (pos : Position) :
    (slCheck env w sym pos = w ∧
      (∀ sid, pos.sl_order_id = some sid → w.status sid ≠ some "complete")) ∨
    (∀ kv ∈ (slCheck env w sym pos).store, ¬ kv.1 = sym) := by
  unfold slCheck
  rcases hsi : pos.sl_order_id with _ | sid
  · exact Or.inl ⟨rfl, fun sid h => Option.noConfusion h⟩
  · dsimp only
    by_cases hst : w.status sid = some "complete"
    · rw [if_pos hst]
      refine Or.inr ?_
      intro kv hkv
      exact (mem_storeDel _ sym kv).mp hkv |>.2
    · rw [if_neg hst]
      refine Or.inl ⟨rfl, fun sid' h1 h2 => ?_⟩
      injection h1 with h3
      subst h3
      exact hst h2

theorem slCheck_status_mono (env : Env) (w : World) (sym : String)
    (pos : Position) (o : String)
    (h : (slCheck env w sym pos).status o = some "complete") :
    w.status o = some "complete" := by
  unfold slCheck at h
  split at h
  · exact h
  · split at h
    · rcases hti : pos.tp_order_id with _ | tid <;> rw [hti] at h <;>
        rcases hpi : pos.partial_order_id with _ | pid <;> rw [hpi] at h <;>
        dsimp only at h
      · exact h
      · exact cancel_status_mono env w pid o h
      · exact cancel_status_mono env w tid o h
      · exact cancel_status_mono env w tid o
          (cancel_status_mono env (cancel_order env w tid) pid o h)
    · exact h

theorem slCheck_store_sub (env : Env) (w : World) (sym : String) (pos : Position) :
    ∀ kv ∈ (slCheck env w sym pos).store, kv ∈ w.store := by
  unfold slCheck
  split
  · exact fun kv h => h
  · split
    · intro kv hkv
      rcases hti : pos.tp_order_id with _ | tid <;> rw [hti] at hkv <;>
        rcases hpi : pos.partial_order_id with _ | pid <;> rw [hpi] at hkv <;>
        dsimp only at hkv
      · exact ((mem_storeDel _ sym kv).mp hkv).1
      · have h2 := ((mem_storeDel _ sym kv).mp hkv).1
        rwa [(cancel_order_spec env w pid).1] at h2
      · have h2 := ((mem_storeDel _ sym kv).mp hkv).1
        rwa [(cancel_order_spec env w tid).1] at h2
      · have h2 := ((mem_storeDel _ sym kv).mp hkv).1
        rw [(cancel_order_spec env (cancel_order env w tid) pid).1] at h2
        rwa [(cancel_order_spec env w tid).1] at h2
    · exact fun kv h => h

theorem processPosition_status_mono (env : Env) (w : World) (sym : String)
    (pos : Position) (o : String)
    (h : (processPosition env w sym pos).status o = some "complete") :
    w.status o = some "complete" := by
  unfold processPosition at h
  exact partialCheck_status_mono env w sym pos o
    (tpCheck_status_mono env _ sym _ o (slCheck_status_mono env _ sym _ o h))

theorem statusStable_mono (st st' : String → Option String) (pos : Position)
    (hmono : ∀ o, st' o = some "complete" → st o = some "complete")
    (h : statusStable st pos) : statusStable st' pos := by
  obtain ⟨h1, h2, h3⟩ := h
  refine ⟨?_, ?_, ?_⟩
  · intro pid hp hf hc
    exact h1 pid hp hf (hmono pid hc)
  · intro tid ht hc
    exact h2 tid ht (hmono tid hc)
  · intro sid hs hc
    exact h3 sid hs (hmono sid hc)

theorem processPosition_store_sub (env : Env) (w : World) (sym : String)
    (pos : Position) :
    ∀ kv ∈ (processPosition env w sym pos).store, ¬ kv.1 = sym → kv ∈ w.store := by
  unfold processPosition
  intro kv hkv hne
  have h1 := slCheck_store_sub env _ sym _ kv hkv
  have h2 := tpCheck_store_sub env _ sym _ kv h1
  rcases partialCheck_store_cases env w sym pos with hpc | hpc
  · rwa [hpc] at h2
  · rw [hpc] at h2
    rcases (mem_storePut _ sym _ kv).mp h2 with ⟨hm, _⟩ | hm
    · exact hm
    · rw [hm] at hne
      exact absurd rfl hne

theorem processPosition_self_stable (env : Env) (w : World) (sym : String)
    (pos : Position)
    (hself : ∀ kv ∈ w.store, kv.1 = sym → kv.2 = pos) :
    ∀ kv ∈ (processPosition env w sym pos).store, kv.1 = sym →
      statusStable (processPosition env w sym pos).status kv.2 := by
  intro kv hkv hkey
  unfold processPosition at hkv ⊢
  rcases slCheck_cases env (tpCheck env (partialCheck env w sym pos).2 sym
      (partialCheck env w sym pos).1) sym (partialCheck env w sym pos).1 with
    ⟨hseq, hsns⟩ | hdel
  · rw [hseq] at hkv ⊢
    rcases tpCheck_cases env (partialCheck env w sym pos).2 sym
        (partialCheck env w sym pos).1 with ⟨hteq, htns⟩ | hdel2
    · rw [hteq] at hkv hsns ⊢
      rcases partialCheck_cases env w sym pos with ⟨hpeq, hpcl⟩ | ⟨hpfill, hpstore⟩
      · rw [hpeq] at hkv htns hsns ⊢
        dsimp only at hkv htns hsns ⊢
        have hv : kv.2 = pos := hself kv hkv hkey
        rw [hv]
        exact ⟨hpcl, htns, hsns⟩
      · rw [hpstore] at hkv
        have hv : kv = (sym, (partialCheck env w sym pos).1) := by
          rcases (mem_storePut _ sym _ kv).mp hkv with ⟨_, hne⟩ | he
          · exact absurd hkey hne
          · exact he
        rw [hv]
        refine ⟨fun pid hp hf => ?_, htns, hsns⟩
        rw [hpfill] at hf
        cases hf
    · exact absurd hkey (hdel2 kv hkv)
  · exact absurd hkey (hdel kv hkv)

theorem nodup_keys_pair_eq (l : List (String × Position))
    (hnd : (l.map Prod.fst).Nodup) (a b : String × Position)
    (ha : a ∈ l) (hb : b ∈ l) (hk : a.1 = b.1) : a = b := by
  induction l with
  | nil => cases ha
  | cons c t ih =>
    simp only [List.map_cons, List.nodup_cons] at hnd
    rcases List.mem_cons.mp ha with ha1 | ha1 <;>
      rcases List.mem_cons.mp hb with hb1 | hb1
    · rw [ha1, hb1]
    · exfalso
      apply hnd.1
      rw [← ha1, hk]
      exact List.mem_map.mpr ⟨b, hb1, rfl⟩
    · exfalso
      apply hnd.1
      rw [← hb1, ← hk]
      exact List.mem_map.mpr ⟨a, ha1, rfl⟩
    · exact ih hnd.2 ha1 hb1

theorem partialCheck_noop (env : Env) (w : World) (sym : String) (pos : Position)
    (h : ∀ pid, pos.partial_order_id = some pid → pos.partial_filled = false →
      w.status pid ≠ some "complete") :
    partialCheck env w sym pos = (pos, w) := by
  unfold partialCheck
  rcases hpi : pos.partial_order_id with _ | pid
  · rfl
  · dsimp only
    by_cases hpf : pos.partial_filled = true
    · rw [if_pos hpf]
    · rw [if_neg hpf]
      rw [if_neg (h pid hpi (Bool.not_eq_true _ ▸ hpf))]

theorem tpCheck_noop (env : Env) (w : World) (sym : String) (pos : Position)
    (h : ∀ tid, pos.tp_order_id = some tid → w.status tid ≠ some "complete") :
    tpCheck env w sym pos = w := by
  unfold tpCheck
  rcases hti : pos.tp_order_id with _ | tid
  · rfl
  · dsimp only
    rw [if_neg (h tid hti)]

theorem slCheck_noop (env : Env) (w : World) (sym : String) (pos : Position)
    (h : ∀ sid, pos.sl_order_id = some sid → w.status sid ≠ some "complete") :
    slCheck env w sym pos = w := by
  unfold slCheck
  rcases hsi : pos.sl_order_id with _ | sid
  · rfl
  · dsimp only
    rw [if_neg (h sid hsi)]

theorem processPosition_noop (env : Env) (w : World) (sym : String)
    (pos : Position) (h : statusStable w.status pos) :
    processPosition env w sym pos = w := by
  obtain ⟨h1, h2, h3⟩ := h
  unfold processPosition
  rw [partialCheck_noop env w sym pos h1]
  dsimp only
  rw [tpCheck_noop env w sym pos h2]
  rw [slCheck_noop env w sym pos h3]

theorem foldl_noop (env : Env) (w : World) (l : List (String × Position))
    (h : ∀ kv ∈ l, statusStable w.status kv.2) :
    List.foldl (fun acc kv => processPosition env acc kv.1 kv.2) w l = w := by
  induction l with
  | nil => rfl
  | cons a t ih =>
    rw [List.foldl_cons,
      processPosition_noop env w a.1 a.2 (h a (List.mem_cons_self a t))]
    exact ih (fun kv hkv => h kv (List.mem_cons_of_mem a hkv))

theorem foldl_stable (env : Env) (snap : List (String × Position))
    (hnd : (snap.map Prod.fst).Nodup) :
    ∀ (todo done : List (String × Position)) (w : World),
      done ++ todo = snap →
      (∀ kv ∈ w.store, kv.1 ∈ done.map Prod.fst → statusStable w.status kv.2) →
      (∀ kv ∈ w.store, kv.1 ∉ done.map Prod.fst → kv ∈ snap) →
      ∀ kv ∈ (List.foldl (fun acc kv => processPosition env acc kv.1 kv.2) w todo).store,
        statusStable
          (List.foldl (fun acc kv => processPosition env acc kv.1 kv.2) w todo).status
          kv.2 := by
  intro todo
  induction todo with
  | nil =>
    intro done w hsnap hinv1 hinv2 kv hkv
    simp only [List.foldl_nil]
    rcases Classical.em (kv.1 ∈ done.map Prod.fst) with hin | hout
    · exact hinv1 kv hkv hin
    · exfalso
      apply hout
      have hmem : kv ∈ snap := hinv2 kv hkv hout
      rw [← hsnap] at hmem
      simp only [List.append_nil] at hmem
      exact List.mem_map.mpr ⟨kv, hmem, rfl⟩
  | cons hd rest ih =>
    intro done w hsnap hinv1 hinv2 kv hkv
    rw [List.foldl_cons] at hkv ⊢
    have hknotdone : hd.1 ∉ done.map Prod.fst := by
      intro hcontra
      have : ((done ++ hd :: rest).map Prod.fst).Nodup := by rw [hsnap]; exact hnd
      rw [List.map_append] at this
      rcases (List.nodup_append.mp this) with ⟨_, _, hdisj⟩
      exact hdisj hcontra (by simp)
    have hhd_mem_snap : hd ∈ snap := by
      rw [← hsnap]
      exact List.mem_append.mpr (Or.inr (List.mem_cons_self hd rest))
    have hself : ∀ kv0 ∈ w.store, kv0.1 = hd.1 → kv0.2 = hd.2 := by
      intro kv0 hkv0 hkey0
      have h0 : kv0 ∈ snap := hinv2 kv0 hkv0 (by rw [hkey0]; exact hknotdone)
      have := nodup_keys_pair_eq snap hnd kv0 hd h0 hhd_mem_snap hkey0
      rw [this]
    refine ih (done ++ [hd]) (processPosition env w hd.1 hd.2)
      (by rw [← hsnap]; simp) ?_ ?_ kv hkv
    · intro kv0 hkv0 hin
      rcases Classical.em (kv0.1 = hd.1) with heq | hne
      · exact processPosition_self_stable env w hd.1 hd.2 hself kv0 hkv0 heq
      · have hmem0 : kv0 ∈ w.store :=
          processPosition_store_sub env w hd.1 hd.2 kv0 hkv0 hne
        have hin0 : kv0.1 ∈ done.map Prod.fst := by
          simp only [List.map_append, List.mem_append] at hin
          rcases hin with hin | hin
          · exact hin
          · simp at hin
            exact absurd hin hne
        exact statusStable_mono w.status _ kv0.2
          (fun o => processPosition_status_mono env w hd.1 hd.2 o)
          (hinv1 kv0 hmem0 hin0)
    · intro kv0 hkv0 hout
      have hne : ¬ kv0.1 = hd.1 := by
        intro hcontra
        apply hout
        rw [List.map_append]
        exact List.mem_append.mpr (Or.inr (by simp [hcontra]))
      have hmem0 : kv0 ∈ w.store :=
        processPosition_store_sub env w hd.1 hd.2 kv0 hkv0 hne
      apply hinv2 kv0 hmem0
      intro hcontra
      apply hout
      rw [List.map_append]
      exact List.mem_append.mpr (Or.inl hcontra)

/-- After one reconciliation pass every surviving record is stable: no
check of a second pass can fire on it. -/
theorem check_positions_stable (env : Env) (w : World)
    (hnd : (w.store.map Prod.fst).Nodup) :
    ∀ kv ∈ (check_positions env w).store,
      statusStable (check_positions env w).status kv.2 := by
  unfold check_positions
  exact foldl_stable env w.store hnd w.store [] w rfl
    (fun kv _ hin => by cases hin)
    (fun kv h _ => h)

/-- C6: `ReconcilePositions` (`/check_positions`) is idempotent: for
every stored-position state (with well-formed records, i.e. recorded
order ids accompanied by their payloads, as the program always writes
them, and one record per symbol as the table key guarantees), running
the pass twice in succession with no change to any external order
status between the runs yields the same world as running it once — in
particular the second run places no orders, issues no cancellations,
and leaves every stored record unchanged. -/
theorem c6_reconcile_idempotent (env : Env) (w : World)
    (hnd : (w.store.map Prod.fst).Nodup)
    (hwf : ∀ kv ∈ w.store, WFpos kv.2) :
    check_positions env (check_positions env w) = check_positions env w := by
  have hstab := check_positions_stable env w hnd
  exact foldl_noop env (check_positions env w) (check_positions env w).store hstab

/-- C6, witness: idempotence at the concrete world holding the TEST
position with a completed partial order. -/
theorem c6_witness :
    check_positions exEnv (check_positions exEnv exWorldPartial) =
      check_positions exEnv exWorldPartial :=
  c6_reconcile_idempotent exEnv exWorldPartial (by decide) (by decide)

theorem tpCheck_trace (env : Env) (w : World) (sym : String) (pos : Position) :
    ∃ δ, (tpCheck env w sym pos).trace = w.trace ++ δ ∧
      ∀ a ∈ δ, actIsPlace a = false := by
  unfold tpCheck
  split
  · exact ⟨[], by simp, by simp⟩
  · split
    · rcases hsi : pos.sl_order_id with _ | sid <;> dsimp only
      · exact ⟨[], by simp, by simp⟩
      · unfold cancel_order
        split
        · exact ⟨[Act.cancel sid], by simp, by simp [actIsPlace]⟩
        · exact ⟨[], by simp, by simp⟩
    · exact ⟨[], by simp, by simp⟩

theorem slCheck_trace (env : Env) (w : World) (sym : String) (pos : Position) :
    ∃ δ, (slCheck env w sym pos).trace = w.trace ++ δ ∧
      ∀ a ∈ δ, actIsPlace a = false := by
  unfold slCheck
  split
  · exact ⟨[], by simp, by simp⟩
  · split
    · have oc : ∀ (w' : World) (o : Option String),
          ∃ δ, (match o with
                | some x => cancel_order env w' x
                | none => w').trace = w'.trace ++ δ ∧
            ∀ a ∈ δ, actIsPlace a = false := by
        intro w' o
        cases o with
        | none => exact ⟨[], by simp, by simp⟩
        | some x =>
          dsimp only
          unfold cancel_order
          split
          · exact ⟨[Act.cancel x], by simp, by simp [actIsPlace]⟩
          · exact ⟨[], by simp, by simp⟩
      obtain ⟨δ1, h1, l1⟩ := oc w pos.tp_order_id
      obtain ⟨δ2, h2, l2⟩ := oc _ pos.partial_order_id
      refine ⟨δ1 ++ δ2, ?_, ?_⟩
      · dsimp only
        rw [h2, h1]
        simp [List.append_assoc]
      · intro a ha
        rcases List.mem_append.mp ha with h | h
        · exact l1 a h
        · exact l2 a h
    · exact ⟨[], by simp, by simp⟩

theorem partialCheck_fire_trace (env : Env) (w : World) (sym : String)
    (pos : Position) (pid sid : String) (sd pd : OrderSpec)
    (htok : env.tokenOk = true)
    (h1 : pos.partial_order_id = some pid)
    (h2 : pos.partial_filled = false)
    (h3 : w.status pid = some "complete")
    (h4 : pos.sl_order_id = some sid)
    (h5 : pos.sl_order_data = some sd)
    (h6 : pos.partial_order_data = some pd) :
    (partialCheck env w sym pos).2.trace =
      w.trace ++ Act.cancel sid ::
        (match env.instrumentKey sym with
         | none => []
         | some key =>
           match env.place w.placeCount
               (slmOrder (pos.filled_qty - pd.quantity) sd.trigger_price key
                 (oppositeOf pos.action)) with
           | some oid =>
             [Act.place
                (slmOrder (pos.filled_qty - pd.quantity) sd.trigger_price key
                  (oppositeOf pos.action)) "ADJUSTED SL" (some oid)]
           | none =>
             [Act.place
                (slmOrder (pos.filled_qty - pd.quantity) sd.trigger_price key
                  (oppositeOf pos.action)) "ADJUSTED SL" none,
              Act.place
                (marketOrder (pos.filled_qty - pd.quantity) key
                  (oppositeOf pos.action)) "EMERGENCY EXIT"
                (env.place (w.placeCount + 1)
                  (marketOrder (pos.filled_qty - pd.quantity) key
                    (oppositeOf pos.action)))]) := by
  obtain ⟨psym, pact, pqr, pfq, peid, ped, pslid, ptpid, ppoid, psld, ptpd, ppod,
    pfl, pca⟩ := pos
  dsimp only at h1 h2 h4 h5 h6 ⊢
  subst h1 h2 h4 h5 h6
  unfold partialCheck
  dsimp only
  rw [if_neg (by simp), if_pos h3]
  unfold replaceSlAfterPartial
  dsimp only [Option.map, Option.getD]
  unfold cancel_order
  rw [if_pos htok]
  cases hk : env.instrumentKey sym with
  | none => simp
  | some key =>
    dsimp only [doPlace]
    cases hp : env.place w.placeCount
        (slmOrder (pfq - pd.quantity) sd.trigger_price key (oppositeOf pact)) with
    | some oid => simp
    | none =>
      dsimp only
      unfold emergency_exit_position
      rw [hk]
      dsimp only [doPlace]
      simp

/-- C4 (corrected): whenever a position's partial take-profit order is
observed complete (and not yet marked filled) and the position carries a
stop-loss order, the reconciliation pass cancels that stop-loss; then,
only when the instrument key still resolves for the symbol, it places a
replacement SL-M at the stored trigger price for the remaining quantity
(filled quantity minus the partial leg's quantity), issuing an
EMERGENCY EXIT market order for that remaining quantity if the
replacement placement fails.  When the instrument key does not resolve,
the stop-loss is cancelled and nothing is placed at all: every further
action of the pass is a cancellation, never a placement, so protection
lapses. -/
theorem c4_amended (env : Env) (w : World) (sym : String) (pos : Position)
    (pid sid : String) (sd pd : OrderSpec)
    (htok : env.tokenOk = true)
    (h1 : pos.partial_order_id = some pid)
    (h2 : pos.partial_filled = false)
    (h3 : w.status pid = some "complete")
    (h4 : pos.sl_order_id = some sid)
    (h5 : pos.sl_order_data = some sd)
    (h6 : pos.partial_order_data = some pd) :
    ∃ t2, (∀ a ∈ t2, actIsPlace a = false) ∧
      (processPosition env w sym pos).trace =
        w.trace ++ Act.cancel sid ::
          ((match env.instrumentKey sym with
            | none => []
            | some key =>
              match env.place w.placeCount
                  (slmOrder (pos.filled_qty - pd.quantity) sd.trigger_price key
                    (oppositeOf pos.action)) with
              | some oid =>
                [Act.place
                   (slmOrder (pos.filled_qty - pd.quantity) sd.trigger_price key
                     (oppositeOf pos.action)) "ADJUSTED SL" (some oid)]
              | none =>
                [Act.place
                   (slmOrder (pos.filled_qty - pd.quantity) sd.trigger_price key
                     (oppositeOf pos.action)) "ADJUSTED SL" none,
                 Act.place
                   (marketOrder (pos.filled_qty - pd.quantity) key
                     (oppositeOf pos.action)) "EMERGENCY EXIT"
                   (env.place (w.placeCount + 1)
                     (marketOrder (pos.filled_qty - pd.quantity) key
                       (oppositeOf pos.action)))]) ++ t2) := by
  obtain ⟨δ1, e1, l1⟩ :=
    tpCheck_trace env (partialCheck env w sym pos).2 sym (partialCheck env w sym pos).1
  obtain ⟨δ2, e2, l2⟩ :=
    slCheck_trace env
      (tpCheck env (partialCheck env w sym pos).2 sym (partialCheck env w sym pos).1)
      sym (partialCheck env w sym pos).1
  refine ⟨δ1 ++ δ2, ?_, ?_⟩
  · intro a ha
    rcases List.mem_append.mp ha with h | h
    · exact l1 a h
    · exact l2 a h
  · have hfire := partialCheck_fire_trace env w sym pos pid sid sd pd htok h1 h2 h3 h4 h5 h6
    show (slCheck env
        (tpCheck env (partialCheck env w sym pos).2 sym (partialCheck env w sym pos).1)
        sym (partialCheck env w sym pos).1).trace = _
    rw [e2, e1, hfire]
    simp [List.append_assoc]

theorem c4_witness :
    ∃ t2, (∀ a ∈ t2, actIsPlace a = false) ∧
      (processPosition exEnv exWorldPartial "TEST" exPosPartial).trace =
        exWorldPartial.trace ++ Act.cancel "S1" ::
          ((match exEnv.instrumentKey "TEST" with
            | none => []
            | some key =>
              match exEnv.place exWorldPartial.placeCount
                  (slmOrder (exPosPartial.filled_qty - (limitOrder 5 105 "IK" "SELL").quantity)
                    (slmOrder 10 95 "IK" "SELL").trigger_price key
                    (oppositeOf exPosPartial.action)) with
              | some oid =>
                [Act.place
                   (slmOrder (exPosPartial.filled_qty - (limitOrder 5 105 "IK" "SELL").quantity)
                     (slmOrder 10 95 "IK" "SELL").trigger_price key
                     (oppositeOf exPosPartial.action)) "ADJUSTED SL" (some oid)]
              | none =>
                [Act.place
                   (slmOrder (exPosPartial.filled_qty - (limitOrder 5 105 "IK" "SELL").quantity)
                     (slmOrder 10 95 "IK" "SELL").trigger_price key
                     (oppositeOf exPosPartial.action)) "ADJUSTED SL" none,
                 Act.place
                   (marketOrder (exPosPartial.filled_qty - (limitOrder 5 105 "IK" "SELL").quantity)
                     key (oppositeOf exPosPartial.action)) "EMERGENCY EXIT"
                   (exEnv.place (exWorldPartial.placeCount + 1)
                     (marketOrder (exPosPartial.filled_qty - (limitOrder 5 105 "IK" "SELL").quantity)
                       key (oppositeOf exPosPartial.action)))]) ++ t2) :=
  c4_amended exEnv exWorldPartial "TEST" exPosPartial "P1" "S1"
    (slmOrder 10 95 "IK" "SELL") (limitOrder 5 105 "IK" "SELL")
    rfl rfl rfl (by decide) rfl rfl rfl

theorem qtyRequested_pos (v : Option SigVal) : 1 ≤ qtyRequested v := by
  unfold qtyRequested
  generalize pyRound (signalQtyFloat v) = x
  omega

theorem placeSl_store_total (env : Env) (w : World) (slp : Rat)
    (symbol key action opp : String) (f : Nat) (ps : Position) :
    (placeSlLegAndPersist env w slp symbol key action opp f ps).1.store = w.store ∨
    ∃ pos, (placeSlLegAndPersist env w slp symbol key action opp f ps).1.store =
        storePut w.store symbol pos ∧
      pos.filled_qty = ps.filled_qty ∧ pos.qty_requested = ps.qty_requested := by
  by_cases h : slp ≠ 0
  · simp only [placeSlLegAndPersist, doPlace, if_pos h]
    cases hp : env.place w.placeCount (slmOrder f (round2 slp) key opp) with
    | some oid =>
      exact Or.inr ⟨{ ps with
          sl_order_id := some oid,
          sl_order_data := some (slmOrder f (round2 slp) key opp) },
        rfl, rfl, rfl⟩
    | none =>
      left
      simp only [emergency_exit_position, doPlace]
      cases hk : env.instrumentKey symbol <;> simp
  · simp only [placeSlLegAndPersist, if_neg h]
    exact Or.inr ⟨ps, rfl, rfl, rfl⟩

theorem bap_store_total (env : Env) (w : World) (sig : Signal)
    (symbol key action opp : String) (qreq f : Nat) (eid : String)
    (espec : OrderSpec) :
    (bracketAndPersist env w sig symbol key action opp qreq f eid espec).1.store =
      w.store ∨
    ∃ pos,
      (bracketAndPersist env w sig symbol key action opp qreq f eid espec).1.store =
        storePut w.store symbol pos ∧
      pos.filled_qty = f ∧ pos.qty_requested = qreq := by
  simp only [bracketAndPersist]
  obtain ⟨_, _, p1f, p1q, _, _, _, _, _, p1st⟩ :=
    placePartialLeg_fst_fields env w (signalPriceFloat sig.partial_tp) key opp f
      (initPositionState symbol action qreq f eid espec env.now)
  obtain ⟨_, _, t1f, t1q, _, _, _, _, t1st⟩ :=
    placeTpLeg_fst_fields env
      (placePartialLeg env w (signalPriceFloat sig.partial_tp) key opp f
        (initPositionState symbol action qreq f eid espec env.now)).2
      (signalPriceFloat sig.tp) (signalPriceFloat sig.partial_tp) key opp f
      (placePartialLeg env w (signalPriceFloat sig.partial_tp) key opp f
        (initPositionState symbol action qreq f eid espec env.now)).1
  rcases placeSl_store_total env _ (signalPriceFloat sig.sl) symbol key action opp f _
    with h | ⟨pos, hs, hf, hq⟩
  · left
    rw [h, t1st, p1st]
  · right
    refine ⟨pos, ?_, ?_, ?_⟩
    · rw [hs, t1st, p1st]
    · rw [hf, t1f, p1f]
      rfl
    · rw [hq, t1q, p1q]
      rfl

theorem entryAndBracket_store_total (env : Env) (w : World) (sig : Signal)
    (symbol key action : String) :
    (entryAndBracket env w sig symbol key action).1.store = w.store ∨
    ∃ pos, (entryAndBracket env w sig symbol key action).1.store =
        storePut w.store symbol pos ∧
      1 ≤ pos.filled_qty ∧ 1 ≤ pos.qty_requested := by
  simp only [entryAndBracket, doPlace]
  cases hpr : env.place w.placeCount (marketOrder (qtyRequested sig.qty) key action) with
  | none => exact Or.inl rfl
  | some eid =>
    dsimp only
    by_cases hfill : (env.entryFill eid).1 = false ∨ (env.entryFill eid).2 = 0
    · rw [if_pos hfill]
      exact Or.inl rfl
    · rw [if_neg hfill]
      push_neg at hfill
      rcases bap_store_total env
          { w with
              trace := w.trace ++
                [Act.place (marketOrder (qtyRequested sig.qty) key action)
                  "ENTRY ORDER" (some eid)],
              placeCount := w.placeCount + 1 }
          sig symbol key action (oppositeOf action) (qtyRequested sig.qty)
          (env.entryFill eid).2 eid
          (marketOrder (qtyRequested sig.qty) key action)
        with h | ⟨pos, hs, hf, hq⟩
      · exact Or.inl h
      · refine Or.inr ⟨pos, hs, ?_, ?_⟩
        · rw [hf]
          exact Nat.one_le_iff_ne_zero.mpr hfill.2
        · rw [hq]
          exact qtyRequested_pos sig.qty

theorem webhook_store_total (env : Env) (w : World) (sig : Signal)
    (sym : String) (q : Position)
    (h : storeGet (webhook env w sig).1.store sym = some q) :
    storeGet w.store sym = some q ∨
      (1 ≤ q.filled_qty ∧ 1 ≤ q.qty_requested) := by
  rcases webhook_dispatch env w sig with ⟨e, he, _⟩ | ⟨key, hk, he⟩
  · rw [he] at h
    exact Or.inl h
  · rw [he] at h
    obtain ⟨hnone, hother, _, _⟩ :=
      reversalStep_store env w (cleanSymbol (sig.symbol.getD "")) key
        (oppositeOf (sigAction sig))
    rcases entryAndBracket_store_total env
        (reversalStep env w (cleanSymbol (sig.symbol.getD "")) key
          (oppositeOf (sigAction sig)))
        sig (cleanSymbol (sig.symbol.getD "")) key (sigAction sig)
      with hs | ⟨pos, hs, hf, hq⟩
    · rw [hs] at h
      by_cases hsym : sym = cleanSymbol (sig.symbol.getD "")
      · rw [hsym, hnone] at h
        exact Option.noConfusion h
      · left
        rw [← hother sym hsym]
        exact h
    · rw [hs] at h
      by_cases hsym : sym = cleanSymbol (sig.symbol.getD "")
      · subst hsym
        rw [storeGet_put_self] at h
        injection h with h2
        right
        rw [← h2]
        exact ⟨hf, hq⟩
      · rw [storeGet_put_ne _ _ _ _ hsym] at h
        left
        rw [← hother sym hsym]
        exact h

theorem processPosition_mem (env : Env) (w : World) (sym : String) (pos : Position) :
    ∀ kv ∈ (processPosition env w sym pos).store,
      kv ∈ w.store ∨
        (kv.1 = sym ∧ kv.2.filled_qty = pos.filled_qty ∧
          kv.2.qty_requested = pos.qty_requested) := by
  unfold processPosition
  intro kv hkv
  have h1 := slCheck_store_sub env _ sym _ kv hkv
  have h2 := tpCheck_store_sub env _ sym _ kv h1
  rcases partialCheck_store_cases env w sym pos with hpc | hpc
  · rw [hpc] at h2
    exact Or.inl h2
  · rw [hpc] at h2
    rcases (mem_storePut _ sym _ kv).mp h2 with ⟨hm, _⟩ | hm
    · exact Or.inl hm
    · right
      obtain ⟨hf, hq⟩ := partialCheck_fst_qty env w sym pos
      rw [hm]
      exact ⟨rfl, hf, hq⟩

theorem foldl_mem_fields (env : Env) (orig : Store) :
    ∀ (todo : Store) (acc : World),
      (∀ kv ∈ todo, kv ∈ orig) →
      (∀ kv ∈ acc.store, ∃ p, (kv.1, p) ∈ orig ∧ kv.2.filled_qty = p.filled_qty ∧
        kv.2.qty_requested = p.qty_requested) →
      ∀ kv ∈ (List.foldl (fun acc kv => processPosition env acc kv.1 kv.2)
          acc todo).store,
        ∃ p, (kv.1, p) ∈ orig ∧ kv.2.filled_qty = p.filled_qty ∧
          kv.2.qty_requested = p.qty_requested := by
  intro todo
  induction todo with
  | nil => exact fun acc _ hacc kv hkv => hacc kv hkv
  | cons hd tl ih =>
    intro acc htodo hacc kv hkv
    refine ih (processPosition env acc hd.1 hd.2)
      (fun kv h => htodo kv (List.mem_cons_of_mem _ h)) ?_ kv hkv
    intro kv' hkv'
    rcases processPosition_mem env acc hd.1 hd.2 kv' hkv' with hm | ⟨he, hf, hq⟩
    · exact hacc kv' hm
    · refine ⟨hd.2, ?_, hf, hq⟩
      rw [he]
      exact htodo hd (List.mem_cons_self _ _)

theorem check_positions_mem_fields (env : Env) (w : World) :
    ∀ kv ∈ (check_positions env w).store,
      ∃ p, (kv.1, p) ∈ w.store ∧ kv.2.filled_qty = p.filled_qty ∧
        kv.2.qty_requested = p.qty_requested := by
  unfold check_positions
  exact foldl_mem_fields env w.store w.store w (fun kv h => h)
    (fun kv h => ⟨kv.2, h, rfl, rfl⟩)

theorem manual_close_store_sub (env : Env) (w : World) (s : String)
    (sym : String) (q : Position)
    (h : storeGet (manual_close env w s).1.store sym = some q) :
    storeGet w.store sym = some q := by
  have oc : ∀ (w' : World) (o : Option String),
      (match o with
       | some x => cancel_order env w' x
       | none => w').store = w'.store := by
    intro w' o
    cases o with
    | none => rfl
    | some x => exact (cancel_order_spec env w' x).1
  unfold manual_close at h
  dsimp only at h
  cases hg : storeGet w.store ((s.toUpper).replace "-EQ" "") with
  | none =>
    rw [hg] at h
    exact h
  | some pos =>
    rw [hg] at h
    dsimp only at h
    cases hk : env.instrumentKey ((s.toUpper).replace "-EQ" "") with
    | none =>
      rw [hk] at h
      dsimp only at h
      rw [oc _ pos.partial_order_id, oc _ pos.tp_order_id,
        oc _ pos.sl_order_id] at h
      exact h
    | some key =>
      rw [hk] at h
      dsimp only [doPlace] at h
      cases hr : env.place
          (match pos.partial_order_id with
           | some o => cancel_order env
               (match pos.tp_order_id with
                | some o => cancel_order env
                    (match pos.sl_order_id with
                     | some o => cancel_order env w o
                     | none => w) o
                | none =>
                  match pos.sl_order_id with
                  | some o => cancel_order env w o
                  | none => w) o
           | none =>
             match pos.tp_order_id with
             | some o => cancel_order env
                 (match pos.sl_order_id with
                  | some o => cancel_order env w o
                  | none => w) o
             | none =>
               match pos.sl_order_id with
               | some o => cancel_order env w o
               | none => w).placeCount
          (marketOrder
            (pos.filled_qty -
              (if pos.partial_filled then
                (pos.partial_order_data.map OrderSpec.quantity).getD 0
              else 0))
            key (oppositeOf pos.action)) with
    | some oid =>
      rw [hr] at h
      dsimp only at h
      rw [oc _ pos.partial_order_id, oc _ pos.tp_order_id,
        oc _ pos.sl_order_id] at h
      by_cases hsym : sym = (s.toUpper).replace "-EQ" ""
      · rw [hsym, storeGet_del_self] at h
        exact Option.noConfusion h
      · rw [storeGet_del_ne _ _ _ hsym] at h
        exact h
    | none =>
      rw [hr] at h
      dsimp only at h
      rw [oc _ pos.partial_order_id, oc _ pos.tp_order_id,
        oc _ pos.sl_order_id] at h
      exact h

/-- C10: stored quantities are sane and immutable.  (1) Any record
readable from the store after a webhook call either was already there
unchanged or has filled quantity and requested quantity both at
least 1 (the requested quantity is `max(1, round(qty))` and persistence
requires a verified nonzero fill).  (2) A record readable after a
`/check_positions` pass agrees in both quantities with a record the
store held before the pass (the pass only flips `partial_filled`,
rewrites SL fields, or deletes records).  (3) `/close/<symbol>` never
changes a surviving record: it only cancels orders and deletes the
closed symbol's record. -/
theorem c10_quantities_invariant :
    (∀ env w sig sym q,
        storeGet (webhook env w sig).1.store sym = some q →
        storeGet w.store sym = some q ∨
          (1 ≤ q.filled_qty ∧ 1 ≤ q.qty_requested)) ∧
    (∀ env w sym q,
        storeGet (check_positions env w).store sym = some q →
        ∃ p, (sym, p) ∈ w.store ∧ q.filled_qty = p.filled_qty ∧
          q.qty_requested = p.qty_requested) ∧
    (∀ env w s sym q,
        storeGet (manual_close env w s).1.store sym = some q →
        storeGet w.store sym = some q) := by
  refine ⟨?_, ?_, ?_⟩
  · exact fun env w sig sym q h => webhook_store_total env w sig sym q h
  · intro env w sym q h
    exact check_positions_mem_fields env w (sym, q)
      (storeGet_mem _ sym q h)
  · exact fun env w s sym q h => manual_close_store_sub env w s sym q h

theorem c10_witness :
    storeGet exWorld0.store "TEST" = some exOpenedPos ∨
      (1 ≤ exOpenedPos.filled_qty ∧ 1 ≤ exOpenedPos.qty_requested) :=
  c10_quantities_invariant.1 exEnv exWorld0 exSigFull "TEST" exOpenedPos rfl
